import Mathlib

/-!
Verification of the agentic workflow core: a shallow embedding of
`workflow_engine.py` (WorkflowEngine) and `ai_app_builder_workflow.py`
(AIAgent / GrandOrchestrator) from the `asimkasi/agenticai` repository,
together with theorems settling the specification claims about handler
selection, condition checking, template substitution, state updates,
delegation/retry bookkeeping, agent activation and the dispatch cycle.
-/

set_option maxRecDepth 4000

/-- JSON-like values: the data manipulated by the engine and orchestrator.
Numbers are modelled as integers (the configs and states in this code base
use only strings, integers, booleans, null, objects and arrays). Python
dicts are modelled as association lists in insertion order. -/
inductive JVal where
  | str  : String → JVal
  | num  : Int → JVal
  | bool : Bool → JVal
  | null : JVal
  | obj  : List (String × JVal) → JVal
  | arr  : List JVal → JVal

mutual
/-- Structural (Python-style) equality of JSON values. -/
def JVal.beq : JVal → JVal → Bool
  | .str a, .str b => a == b
  | .num a, .num b => a == b
  | .bool a, .bool b => a == b
  | .null, .null => true
  | .obj a, .obj b => beqFields a b
  | .arr a, .arr b => beqItems a b
  | _, _ => false
/-- Equality of object field lists. -/
def beqFields : List (String × JVal) → List (String × JVal) → Bool
  | [], [] => true
  | (k1, v1) :: r1, (k2, v2) :: r2 =>
      k1 == k2 && JVal.beq v1 v2 && beqFields r1 r2
  | _, _ => false
/-- Equality of array item lists. -/
def beqItems : List JVal → List JVal → Bool
  | [], [] => true
  | v1 :: r1, v2 :: r2 => JVal.beq v1 v2 && beqItems r1 r2
  | _, _ => false
end

mutual
def JVal.beq_iff : ∀ a b : JVal, JVal.beq a b = true ↔ a = b
  | .str _, .str _ => by simp [JVal.beq]
  | .num _, .num _ => by simp [JVal.beq]
  | .bool _, .bool _ => by simp [JVal.beq]
  | .null, .null => by simp [JVal.beq]
  | .obj a, .obj b => by simp [JVal.beq, beqFields_iff a b]
  | .arr a, .arr b => by simp [JVal.beq, beqItems_iff a b]
  | .str _, .num _ => by simp [JVal.beq]
  | .str _, .bool _ => by simp [JVal.beq]
  | .str _, .null => by simp [JVal.beq]
  | .str _, .obj _ => by simp [JVal.beq]
  | .str _, .arr _ => by simp [JVal.beq]
  | .num _, .str _ => by simp [JVal.beq]
  | .num _, .bool _ => by simp [JVal.beq]
  | .num _, .null => by simp [JVal.beq]
  | .num _, .obj _ => by simp [JVal.beq]
  | .num _, .arr _ => by simp [JVal.beq]
  | .bool _, .str _ => by simp [JVal.beq]
  | .bool _, .num _ => by simp [JVal.beq]
  | .bool _, .null => by simp [JVal.beq]
  | .bool _, .obj _ => by simp [JVal.beq]
  | .bool _, .arr _ => by simp [JVal.beq]
  | .null, .str _ => by simp [JVal.beq]
  | .null, .num _ => by simp [JVal.beq]
  | .null, .bool _ => by simp [JVal.beq]
  | .null, .obj _ => by simp [JVal.beq]
  | .null, .arr _ => by simp [JVal.beq]
  | .obj _, .str _ => by simp [JVal.beq]
  | .obj _, .num _ => by simp [JVal.beq]
  | .obj _, .bool _ => by simp [JVal.beq]
  | .obj _, .null => by simp [JVal.beq]
  | .obj _, .arr _ => by simp [JVal.beq]
  | .arr _, .str _ => by simp [JVal.beq]
  | .arr _, .num _ => by simp [JVal.beq]
  | .arr _, .bool _ => by simp [JVal.beq]
  | .arr _, .null => by simp [JVal.beq]
  | .arr _, .obj _ => by simp [JVal.beq]
def beqFields_iff : ∀ a b : List (String × JVal), beqFields a b = true ↔ a = b
  | [], [] => by simp [beqFields]
  | [], _ :: _ => by simp [beqFields]
  | _ :: _, [] => by simp [beqFields]
  | (_, v1) :: r1, (_, v2) :: r2 => by
      simp [beqFields, JVal.beq_iff v1 v2, beqFields_iff r1 r2, and_assoc]
def beqItems_iff : ∀ a b : List JVal, beqItems a b = true ↔ a = b
  | [], [] => by simp [beqItems]
  | [], _ :: _ => by simp [beqItems]
  | _ :: _, [] => by simp [beqItems]
  | v1 :: r1, v2 :: r2 => by
      simp [beqItems, JVal.beq_iff v1 v2, beqItems_iff r1 r2]
end

instance : DecidableEq JVal := fun a b => decidable_of_iff _ (JVal.beq_iff a b)

/-- First-occurrence association-list lookup: Python `dict[k]` / `dict.get(k)`. -/
def lookupKey : List (String × JVal) → String → Option JVal
  | [], _ => none
  | (k', v) :: rest, k => if k' = k then some v else lookupKey rest k

/-- Python dict assignment `d[k] = v`: overwrite in place if the key exists,
else append (insertion order). -/
def setKey : List (String × JVal) → String → JVal → List (String × JVal)
  | [], k, v => [(k, v)]
  | (k', v') :: rest, k, v =>
      if k' = k then (k, v) :: rest else (k', v') :: setKey rest k v

/-- Python truthiness of a JSON value (`if not x: ...`). -/
def jvalTruthy : JVal → Bool
  | .str s  => s ≠ ""
  | .num n  => n ≠ 0
  | .bool b => b
  | .null   => false
  | .obj l  => ¬ l.isEmpty
  | .arr l  => ¬ l.isEmpty

/-- Helper for `splitDots`: accumulate the current segment (reversed). -/
def splitDotsGo : List Char → List Char → List String
  | [], acc => [String.mk acc.reverse]
  | c :: rest, acc =>
      if c = '.' then String.mk acc.reverse :: splitDotsGo rest []
      else splitDotsGo rest (c :: acc)

/-- Python `key.split('.')`: split on every dot, keeping empty segments
(`"".split('.') == ['']`). -/
def splitDots (s : String) : List String :=
  splitDotsGo s.toList []

/-! ## WorkflowEngine._check_conditions -/

/-- Dotted-path lookup used by `_check_conditions`: walk
`current_data = current_data[part]`; a missing key raises KeyError and
indexing a non-dict raises TypeError, both caught and treated as `none`. -/
def getPath : JVal → List String → Option JVal
  | v, [] => some v
  | .obj l, p :: ps =>
      match lookupKey l p with
      | some v => getPath v ps
      | none => none
  | _, _ :: _ => none

/-- One `(condition_type, condition_value)` group of a handler's conditions:
`event_data` pairs are matched against the event payload, `project_state`
pairs against the shared state, anything else (including a non-dict group
value) fails. -/
def condGroup (event_data project_state : List (String × JVal))
    (g : String × JVal) : Bool :=
  if g.1 = "event_data" then
    match g.2 with
    | .obj pairs =>
        pairs.all fun kv =>
          decide (getPath (.obj event_data) (splitDots kv.1) = some kv.2)
    | _ => false
  else if g.1 = "project_state" then
    match g.2 with
    | .obj pairs =>
        pairs.all fun kv =>
          decide (getPath (.obj project_state) (splitDots kv.1) = some kv.2)
    | _ => false
  else false

/-- `WorkflowEngine._check_conditions`: empty conditions always match,
otherwise every group must pass. -/
def check_conditions (conditions : List (String × JVal))
    (event_data project_state : List (String × JVal)) : Bool :=
  conditions.all (condGroup event_data project_state)

/-! ## WorkflowEngine._evaluate_condition -/

/-- A configured action: the mandatory `type` tag plus its other fields. -/
structure ActionCfg where
  atype : String
  fields : List (String × JVal)
deriving DecidableEq

/-- `WorkflowEngine._evaluate_condition`. Built-in
`all_modules_completed`: true iff `project_state['code_modules_status']`
is a non-empty map whose every value is `"completed"`; an absent key
defaults to `{}`. Unknown condition types evaluate false. (In the source a
truthy non-mapping value at `code_modules_status` would raise on
`.values()`; the orchestrator always keeps a dict there, and falsy values
return False, which the `_ => false` arm reproduces.) -/
def evaluate_condition (a : ActionCfg) (project_state : List (String × JVal)) :
    Bool :=
  if lookupKey a.fields "condition_type" = some (.str "all_modules_completed")
  then
    match (lookupKey project_state "code_modules_status").getD (.obj []) with
    | .obj statuses =>
        ¬ statuses.isEmpty &&
          statuses.all fun kv => decide (kv.2 = .str "completed")
    | _ => false
  else false

/-! ## WorkflowEngine.process_event -/

/-- A handler rule: conditions map plus ordered action list. -/
structure Handler where
  conditions : List (String × JVal)
  actions : List ActionCfg
deriving DecidableEq

/-- The loaded rule table: `events` maps an event kind to its handler list. -/
abbrev RuleTable := List (String × List Handler)

/-- An action as returned by `process_event`: the configured action with
`_event_data` and `_project_state` attached for deferred templating. -/
structure ExecAction where
  atype : String
  fields : List (String × JVal)
  eventData : List (String × JVal)
  projState : List (String × JVal)
deriving DecidableEq

/-- Attach the event/state context to a configured action
(`executable_action = action.copy(); ... ['_event_data'] = ...`). -/
def mkExec (event_data project_state : List (String × JVal)) (a : ActionCfg) :
    ExecAction :=
  ⟨a.atype, a.fields, event_data, project_state⟩

/-- The inner action loop of `process_event`: a `check_condition` action is
evaluated inline — false stops the handler's remaining actions, true skips
it — and every other action is emitted with context attached. -/
def runActions (event_data project_state : List (String × JVal)) :
    List ActionCfg → List ExecAction
  | [] => []
  | a :: rest =>
      if a.atype = "check_condition" then
        if evaluate_condition a project_state then
          runActions event_data project_state rest
        else []
      else mkExec event_data project_state a ::
        runActions event_data project_state rest

/-- The handler loop of `process_event`: first handler whose conditions hold
wins; its action list is processed and the loop breaks. -/
def processHandlers (event_data project_state : List (String × JVal)) :
    List Handler → List ExecAction
  | [] => []
  | h :: rest =>
      if check_conditions h.conditions event_data project_state then
        runActions event_data project_state h.actions
      else processHandlers event_data project_state rest

/-- `WorkflowEngine.process_event`. -/
def process_event (cfg : RuleTable) (event_type : String)
    (event_data project_state : List (String × JVal)) : List ExecAction :=
  processHandlers event_data project_state
    ((cfg.lookup event_type).getD [])


/-! ## WorkflowEngine._substitute_template -/

/-- The `{` character (kept out of string literals). -/
def lbrace : Char := Char.ofNat 123

/-- The `}` character (kept out of string literals). -/
def rbrace : Char := Char.ofNat 125

/-- The `'` character (kept out of literals). -/
def squote : Char := Char.ofNat 39

/-- The `"` character (kept out of literals). -/
def dquote : Char := Char.ofNat 34

/-- A character matched by the regex class `[\\w\\.]`, mechanized over the
ASCII fragment: letters, digits, underscore and the dot. The source
pattern's `\\w` additionally matches non-ASCII word characters (Unicode
letters and digits, which need the Unicode database to classify); key
paths containing such characters are handled by the source exactly like
ASCII ones but lie outside this scanner. -/
def isWordChar (c : Char) : Bool :=
  c.isAlphanum || c = '_' || c = '.'

/-- The numeric data attributes `getattr` finds on a Python `int`, each a
plain number: `(n).real = n`, `(n).imag = 0`, `(n).numerator = n`,
`(n).denominator = 1`. `bool` subclasses `int` and exposes the same four,
returning the underlying `0`/`1` as `int`. -/
def intNumAttr (n : Int) : String → Option JVal
  | "real" => some (.num n)
  | "imag" => some (.num 0)
  | "numerator" => some (.num n)
  | "denominator" => some (.num 1)
  | _ => none

/-- The remaining attribute names of Python `int` and `bool` —
`dir(int) = dir(bool)` in CPython 3.11, minus the four numeric data
attributes, plus `is_integer` (added in 3.12). `getattr` on any of these
returns a method or class object, not a JSON value. -/
def intMethodAttrs : List String :=
  ["__abs__", "__add__", "__and__", "__bool__", "__ceil__", "__class__",
   "__delattr__", "__dir__", "__divmod__", "__doc__", "__eq__",
   "__float__", "__floor__", "__floordiv__", "__format__", "__ge__",
   "__getattribute__", "__getnewargs__", "__getstate__", "__gt__",
   "__hash__", "__index__", "__init__", "__init_subclass__", "__int__",
   "__invert__", "__le__", "__lshift__", "__lt__", "__mod__", "__mul__",
   "__ne__", "__neg__", "__new__", "__or__", "__pos__", "__pow__",
   "__radd__", "__rand__", "__rdivmod__", "__reduce__", "__reduce_ex__",
   "__repr__", "__rfloordiv__", "__rlshift__", "__rmod__", "__rmul__",
   "__ror__", "__round__", "__rpow__", "__rrshift__", "__rshift__",
   "__rsub__", "__rtruediv__", "__rxor__", "__setattr__", "__sizeof__",
   "__str__", "__sub__", "__subclasshook__", "__truediv__", "__trunc__",
   "__xor__", "as_integer_ratio", "bit_count", "bit_length", "conjugate",
   "from_bytes", "is_integer", "to_bytes"]

/-- The attribute names of Python `str` (CPython 3.11 `dir(str)`): all
methods or class objects. -/
def strMethodAttrs : List String :=
  ["__add__", "__class__", "__contains__", "__delattr__", "__dir__",
   "__doc__", "__eq__", "__format__", "__ge__", "__getattribute__",
   "__getitem__", "__getnewargs__", "__getstate__", "__gt__", "__hash__",
   "__init__", "__init_subclass__", "__iter__", "__le__", "__len__",
   "__lt__", "__mod__", "__mul__", "__ne__", "__new__", "__reduce__",
   "__reduce_ex__", "__repr__", "__rmod__", "__rmul__", "__setattr__",
   "__sizeof__", "__str__", "__subclasshook__", "capitalize", "casefold",
   "center", "count", "encode", "endswith", "expandtabs", "find",
   "format", "format_map", "index", "isalnum", "isalpha", "isascii",
   "isdecimal", "isdigit", "isidentifier", "islower", "isnumeric",
   "isprintable", "isspace", "istitle", "isupper", "join", "ljust",
   "lower", "lstrip", "maketrans", "partition", "removeprefix",
   "removesuffix", "replace", "rfind", "rindex", "rjust", "rpartition",
   "rsplit", "rstrip", "split", "splitlines", "startswith", "strip",
   "swapcase", "title", "translate", "upper", "zfill"]

/-- The attribute names of Python `list` (CPython 3.11 `dir(list)`): all
methods or class objects. -/
def listMethodAttrs : List String :=
  ["__add__", "__class__", "__class_getitem__", "__contains__",
   "__delattr__", "__delitem__", "__dir__", "__doc__", "__eq__",
   "__format__", "__ge__", "__getattribute__", "__getitem__",
   "__getstate__", "__gt__", "__hash__", "__iadd__", "__imul__",
   "__init__", "__init_subclass__", "__iter__", "__le__", "__len__",
   "__lt__", "__mul__", "__ne__", "__new__", "__reduce__",
   "__reduce_ex__", "__repr__", "__reversed__", "__rmul__", "__setattr__",
   "__setitem__", "__sizeof__", "__str__", "__subclasshook__", "append",
   "clear", "copy", "count", "extend", "index", "insert", "pop", "remove",
   "reverse", "sort"]

/-- Result of the template walk of `_substitute_template`'s loop:
`val v` — the loop ended on the JSON value `v` and the token gets
`str(v)`; `missing` — the value became `None` (a missing key, a stored
`null`, or a non-dict step whose segment names no attribute of the value,
where `getattr(value, part, None)` returns the `None` default) and the
token gets `'N/A'`; `nonJson` — a non-dict step hit a method or class
attribute, a non-JSON Python object whose `str()` embeds the object's
memory address (`<built-in method count of str object at 0x...>`). The
source can even walk onward from such an object (e.g. `.__name__`); every
walk that touches one is classified `nonJson` here and no theorem below
constrains that case. -/
inductive WalkResult where
  | val : JVal → WalkResult
  | missing : WalkResult
  | nonJson : WalkResult
deriving DecidableEq

/-- The walk of `_substitute_template`'s loop body:
`value = value.get(part) if isinstance(value, dict) else getattr(value, part, None)`
with `if value is None: break`. Dict steps look the key up; non-dict
steps read `getattr`: the numeric `int`/`bool` data attributes continue
the walk with their value, method/class attributes leave the JSON domain
(`nonJson`), and any other segment yields the `None` default. The `null`
step arm is unreachable (the loop breaks on `None` before stepping). -/
def walkTmpl : JVal → List String → WalkResult
  | v, [] => .val v
  | .obj l, p :: ps =>
      match lookupKey l p with
      | some v => if v = JVal.null then .missing else walkTmpl v ps
      | none => .missing
  | .num n, p :: ps =>
      match intNumAttr n p with
      | some w => walkTmpl w ps
      | none => if p ∈ intMethodAttrs then .nonJson else .missing
  | .bool b, p :: ps =>
      match intNumAttr (if b then 1 else 0) p with
      | some w => walkTmpl w ps
      | none => if p ∈ intMethodAttrs then .nonJson else .missing
  | .str _, p :: _ => if p ∈ strMethodAttrs then .nonJson else .missing
  | .arr _, p :: _ => if p ∈ listMethodAttrs then .nonJson else .missing
  | .null, _ :: _ => .missing

/-- One lowercase hexadecimal digit. -/
def hexDigit (n : Nat) : Char :=
  if n < 10 then Char.ofNat (48 + n) else Char.ofNat (87 + n)

/-- Python `repr` escaping of one character inside a string delimited by
`q`: backslash and the delimiter are backslash-escaped, tab, newline and
carriage return become `\\t`, `\\n`, `\\r`, and the other ASCII control
characters (and DEL) become `\\xHH` with lowercase hex. Non-ASCII
characters are kept as-is — exact for printable ones; the source
additionally hex-escapes non-printable non-ASCII characters, a
classification that needs the Unicode database. -/
def escChar (q c : Char) : List Char :=
  if c = '\\' then ['\\', '\\']
  else if c = q then ['\\', q]
  else if c = Char.ofNat 9 then ['\\', 't']
  else if c = Char.ofNat 10 then ['\\', 'n']
  else if c = Char.ofNat 13 then ['\\', 'r']
  else if c.toNat < 32 || c.toNat = 127 then
    ['\\', 'x', hexDigit (c.toNat / 16), hexDigit (c.toNat % 16)]
  else [c]

/-- Python `repr` of a string: single-quoted, unless the string contains
a single quote but no double quote, in which case double-quoted (so the
delimiter never appears unescaped). -/
def pyReprStr (s : String) : String :=
  let q := if s.toList.contains squote && ! s.toList.contains dquote
    then dquote else squote
  String.mk (q :: s.toList.foldr (fun c acc => escChar q c ++ acc) [q])

mutual
/-- Python `repr` of a JSON value (used by `str()` on non-string values). -/
def pyRepr : JVal → String
  | .str s => pyReprStr s
  | .num n => toString n
  | .bool b => if b then "True" else "False"
  | .null => "None"
  | .obj l => String.mk [lbrace] ++ pyReprFields l ++ String.mk [rbrace]
  | .arr l => "[" ++ pyReprItems l ++ "]"
/-- Comma-separated `repr` of dict entries. -/
def pyReprFields : List (String × JVal) → String
  | [] => ""
  | [(k, v)] => pyReprStr k ++ ": " ++ pyRepr v
  | (k, v) :: rest => pyReprStr k ++ ": " ++ pyRepr v ++ ", " ++ pyReprFields rest
/-- Comma-separated `repr` of list items. -/
def pyReprItems : List JVal → String
  | [] => ""
  | [v] => pyRepr v
  | v :: rest => pyRepr v ++ ", " ++ pyReprItems rest
end

/-- Python `str(value)`: a string is itself, everything else its `repr`. -/
def pythonStr : JVal → String
  | .str s => s
  | v => pyRepr v

/-- Fuel-driven core of Python `str.replace` (all occurrences, left to
right, no rescanning of the replacement). `fuel ≥ length of the input`
makes the fuel inexhaustible; the pattern is assumed non-empty. -/
def replaceAllGo (pat repl : List Char) : Nat → List Char → List Char
  | 0, s => s
  | _, [] => []
  | fuel + 1, c :: rest =>
      if pat.isPrefixOf (c :: rest) then
        repl ++ replaceAllGo pat repl fuel (List.drop (pat.length - 1) rest)
      else c :: replaceAllGo pat repl fuel rest

/-- Python `s.replace(pat, repl)` on character lists. The engine only ever
replaces non-empty `\x7b\x7bns.path\x7d\x7d` tokens, so the empty-pattern
case (where Python would interleave `repl` everywhere) is left as the
identity. -/
def replaceAll (pat repl s : List Char) : List Char :=
  if pat.isEmpty then s else replaceAllGo pat repl s.length s

/-- Try to match `name` + `.` + a non-empty `[\\w.]+` run + `\x7d\x7d` at the
head of `cs` (which sits just after a `\x7b\x7b`); returns the captured key
path and the number of characters consumed. -/
def matchNameAt (name : String) (cs : List Char) : Option (String × Nat) :=
  let pat := name.toList ++ ['.']
  if pat.isPrefixOf cs then
    let rest := cs.drop pat.length
    let run := rest.takeWhile isWordChar
    if run.isEmpty then none
    else if [rbrace, rbrace].isPrefixOf (rest.drop run.length) then
      some (String.mk run, pat.length + run.length + 2)
    else none
  else none

/-- Try to match a full `\x7b\x7b(n1|n2)\.[\\w.]+\x7d\x7d` token at the head of
`cs`; alternation tries the names in order, as the regex does. -/
def matchTokenAt (names : List String) (cs : List Char) :
    Option (String × String × Nat) :=
  match cs with
  | c1 :: c2 :: rest =>
      if c1 = lbrace ∧ c2 = lbrace then
        names.findSome? fun n =>
          (matchNameAt n rest).map fun r => (n, r.1, r.2 + 2)
      else none
  | _ => none

/-- Fuel-driven scanner: `re.findall` of the token pattern — left-to-right,
non-overlapping, advancing one character on failure. -/
def scanGo (names : List String) : Nat → List Char → List (String × String)
  | 0, _ => []
  | _, [] => []
  | fuel + 1, c :: rest =>
      match matchTokenAt names (c :: rest) with
      | some (n, kp, len) =>
          (n, kp) :: scanGo names fuel (List.drop (len - 1) rest)
      | none => scanGo names fuel rest

/-- All `(source, key_path)` matches of the token regex in `s`. -/
def scanTokens (names : List String) (s : String) : List (String × String) :=
  scanGo names s.toList.length s.toList

/-- The literal token text `\x7b\x7bsource.key_path\x7d\x7d` rebuilt for
`output.replace(...)`. -/
def tokenText (source keyPath : String) : String :=
  String.mk (lbrace :: lbrace ::
    (source.toList ++ '.' :: keyPath.toList ++ [rbrace, rbrace]))

/-- Placeholder output for a walk that reached a non-JSON attribute: the
source substitutes that object's `str()`, address-bearing text that no
fixed string equals; no theorem below constrains this case. -/
def addrPlaceholder : String := "<non-json-attribute>"

/-- The replacement computed for one match:
`str(value) if value is not None else 'N/A'`. -/
def resolveRef (sourceData : JVal) (keyPath : String) : String :=
  match walkTmpl sourceData (splitDots keyPath) with
  | .val v => pythonStr v
  | .missing => "N/A"
  | .nonJson => addrPlaceholder

/-- One substitution pass: find every token of the given aliases in the
string, then replace each in turn (all occurrences of the token text). -/
def substPhase (names : List String) (sourceData : JVal) (s : String) :
    String :=
  (scanTokens names s).foldl
    (fun out t =>
      String.mk (replaceAll (tokenText t.1 t.2).toList
        (resolveRef sourceData t.2).toList out.toList))
    s

/-- The `event`/`result` aliases (both read the event payload). -/
def eventAliases : List String := ["event", "result"]

/-- The `state`/`project_state` aliases (both read the shared state). -/
def stateAliases : List String := ["state", "project_state"]

mutual
/-- `WorkflowEngine._substitute_template`: strings get the event pass then
the state pass; dicts and lists are walked structurally; other values are
returned unchanged. -/
def substitute_template :
    JVal → List (String × JVal) → List (String × JVal) → JVal
  | .str s, e, st =>
      .str (substPhase stateAliases (.obj st)
        (substPhase eventAliases (.obj e) s))
  | .obj l, e, st => .obj (substFields l e st)
  | .arr l, e, st => .arr (substItems l e st)
  | .num n, _, _ => .num n
  | .bool b, _, _ => .bool b
  | .null, _, _ => .null
termination_by structural v _ _ => v
/-- Recurse into dict values. -/
def substFields :
    List (String × JVal) → List (String × JVal) → List (String × JVal) →
      List (String × JVal)
  | [], _, _ => []
  | (k, v) :: rest, e, st =>
      (k, substitute_template v e st) :: substFields rest e st
termination_by structural l _ _ => l
/-- Recurse into list items. -/
def substItems :
    List JVal → List (String × JVal) → List (String × JVal) → List JVal
  | [], _, _ => []
  | v :: rest, e, st => substitute_template v e st :: substItems rest e st
termination_by structural l _ _ => l
end

/-! ## GrandOrchestrator data model (`ai_app_builder_workflow.py`) -/

/-- A message envelope (`message_id` and `timestamp`, a uuid and a wall
clock reading, are omitted: nothing in the core reads them). `context_id`
is `none` when the Python field is `None`. -/
structure Message where
  sender : String
  recipient : String
  mtype : String
  content : JVal
  context_id : Option String
deriving DecidableEq

/-- An entry of the human-facing inbox built by `send_to_human`. -/
structure HumanMsg where
  mtype : JVal
  content : JVal
  options : JVal
  context_id : JVal
deriving DecidableEq

/-- The orchestrator-owned mutable state: the shared project state, the
internal worker-to-orchestrator queue, the human-facing queues, every
agent's mailbox (in registration order), and a counter supplying fresh
opaque ids (the model of `uuid.uuid4()`). -/
structure OrchState where
  project_state : List (String × JVal)
  internal_queue : List Message
  human_inbox : List HumanMsg
  human_outbox : List (String × Option String)
  inboxes : List (String × List Message)
  fresh : Nat
deriving DecidableEq

/-- The worker registration order fixed in `GrandOrchestrator.__init__`. -/
def agentNames : List String :=
  ["Dream Weaver", "Master Builder", "Aesthetic Artist", "Code Sage",
   "Quality Guardian", "Deployment Master"]

/-- A worker's `process_task` behaviour: success returns the result map,
failure the error text of the exception raised (`NotImplementedError`
differs only in the logged message, which is not modelled). -/
abbrev AgentBehavior := String → JVal → Except String (List (String × JVal))

/-- A fresh opaque context id from the mint counter. -/
def mintId (n : Nat) : String := "uuid-" ++ toString n

/-- An agent's mailbox (empty if the agent is unknown). -/
def lookupInbox : List (String × List Message) → String → List Message
  | [], _ => []
  | (n, ms) :: rest, name => if n = name then ms else lookupInbox rest name

/-- Replace an agent's mailbox. -/
def setInboxList :
    List (String × List Message) → String → List Message →
      List (String × List Message)
  | [], n, ms => [(n, ms)]
  | (n', ms') :: rest, n, ms =>
      if n' = n then (n, ms) :: rest else (n', ms') :: setInboxList rest n ms

/-- `AIAgent.receive_message`: append to the recipient's mailbox. -/
def deliverToAgent (st : OrchState) (name : String) (m : Message) :
    OrchState :=
  { st with inboxes := setInboxList st.inboxes name (lookupInbox st.inboxes name ++ [m]) }

/-- `context_id` as it appears inside an event-data dict. -/
def ctxToJVal : Option String → JVal
  | some s => .str s
  | none => .null

/-- Dict lookup on a JSON value (`.get`): `none` off a non-dict. -/
def jget (v : JVal) (k : String) : Option JVal :=
  match v with
  | .obj l => lookupKey l k
  | _ => none

/-- Dict assignment on a JSON value. The source would raise on a non-dict
(`content['retry_attempt'] = ...` / `task_payload['task_name'] = ...`);
the configurations this orchestrator loads always supply dicts there, and
the model returns non-dicts unchanged. -/
def setObjKey (v : JVal) (k : String) (x : JVal) : JVal :=
  match v with
  | .obj l => .obj (setKey l k x)
  | v => v

/-- A resolved context id used as a dict key. Non-string context ids do
not occur in the modelled configurations (events and templates produce
strings, minted ids are strings). -/
def jvalKeyStr : JVal → String
  | .str s => s
  | _ => ""

/-! ## GrandOrchestrator._update_project_state -/

/-- The recursive core of the path-based write: intermediate path segments
must exist and every parent must be a dict (`isinstance(d, dict) and key
in d`); the final key is written into its parent dict, created if absent.
`none` is the logged no-op error. -/
def setIn : JVal → List String → JVal → Option JVal
  | .obj l, [k], v => some (.obj (setKey l k v))
  | .obj l, k :: k2 :: ks, v =>
      match lookupKey l k with
      | some child =>
          match setIn child (k2 :: ks) v with
          | some child' => some (.obj (setKey l k child'))
          | none => none
      | none => none
  | _, _, _ => none

/-- `GrandOrchestrator._update_project_state`: write `value` at the
dot-separated `path`, or leave the state unchanged when the path does not
resolve through existing dict nodes. -/
def update_project_state (ps : List (String × JVal)) (path : String)
    (value : JVal) : List (String × JVal) :=
  match setIn (.obj ps) (splitDots path) value with
  | some (.obj ps') => ps'
  | _ => ps

/-! ## GrandOrchestrator.send_to_human and task delegation -/

/-- `GrandOrchestrator.send_to_human`: append to the human inbox (falsy
options degrade to `[]`) and, for the awaiting-response message types,
record this context id as the pending approval context. -/
def send_to_human (st : OrchState) (mt content options ctx : JVal) :
    OrchState :=
  let opts := if jvalTruthy options then options else JVal.arr []
  let st1 := { st with human_inbox := st.human_inbox ++ [⟨mt, content, opts, ctx⟩] }
  let ps1 := setKey st1.project_state "pending_human_approval_context" ctx
  if mt = .str "QUESTION" ∨ mt = .str "CRITICAL_ISSUE" ∨
      mt = .str "INSTRUCTION" then
    { st1 with project_state := ps1 }
  else st1

/-- Per-context retry counter read for Quality Guardian:
`project_state['module_test_retries'][ctx]`, a `defaultdict(int)` — an
unseen context reads as `0`. -/
def readQGRetries (ps : List (String × JVal)) (ctx : String) : Int :=
  match lookupKey ps "module_test_retries" with
  | some (.obj m) =>
      match lookupKey m ctx with
      | some (.num n) => n
      | _ => 0
  | _ => 0

/-- The `defaultdict` side effect of that read: an unseen context gets the
default `0` entry inserted. -/
def qgDefaultInsert (ps : List (String × JVal)) (ctx : String) :
    List (String × JVal) :=
  match lookupKey ps "module_test_retries" with
  | some (.obj m) =>
      match lookupKey m ctx with
      | some _ => ps
      | none => setKey ps "module_test_retries" (.obj (setKey m ctx (.num 0)))
  | _ => ps

/-- The single global deployment retry counter
`project_state['deployment_retries']`. -/
def readDeployRetries (ps : List (String × JVal)) : Int :=
  match lookupKey ps "deployment_retries" with
  | some (.num n) => n
  | _ => 0

/-- `GrandOrchestrator._delegate_task`: unknown agents produce an `ERROR`
human message; otherwise a missing/empty context id mints a fresh one, the
context ledger entry `{task_name, agent, original_content}` is recorded
under the context id, and a `task` message whose payload is the content
plus `task_name` is enqueued into the target agent's mailbox. -/
def delegate_task (st : OrchState) (agent task : String) (content : JVal)
    (ctx : Option String) : OrchState :=
  if agent ∈ agentNames then
    let step :=
      match ctx with
      | some s =>
          if s = "" then (mintId st.fresh, { st with fresh := st.fresh + 1 })
          else (s, st)
      | none => (mintId st.fresh, { st with fresh := st.fresh + 1 })
    let ctxStr := step.1
    let st1 := step.2
    let entry := JVal.obj [("task_name", .str task), ("agent", .str agent),
      ("original_content", content)]
    let ps1 :=
      match lookupKey st1.project_state "current_task_contexts" with
      | some (.obj m) =>
          setKey st1.project_state "current_task_contexts" (.obj (setKey m ctxStr entry))
      | _ => st1.project_state
    let payload := setObjKey content "task_name" (.str task)
    let taskMsg : Message := ⟨"Orchestrator", agent, "task", payload, some ctxStr⟩
    deliverToAgent { st1 with project_state := ps1 } agent taskMsg
  else
    send_to_human st (.str "ERROR")
      (.str ("Orchestrator failed to delegate task '" ++ task ++
        "': Agent '" ++ agent ++ "' not found."))
      .null (ctxToJVal ctx)

/-! ## GrandOrchestrator._execute_actions -/

/-- Execute one engine action against the orchestrator state
(`GrandOrchestrator._execute_actions` loop body). Malformed actions (and
action fields whose values are `null`, which `.get` cannot distinguish
from absent) are logged no-ops; a non-string `path` would raise in the
source and does not occur in the loaded configurations. `check_condition`
never reaches this point (the engine consumes it), so it falls into the
unknown-action branch. -/
def execAction (st : OrchState) (event_data : List (String × JVal))
    (a : ExecAction) : OrchState :=
  if a.atype = "update_state" then
    match lookupKey a.fields "path", lookupKey a.fields "value" with
    | some (.str path), some valueTemplate =>
        if valueTemplate = JVal.null then st
        else
          let value := substitute_template valueTemplate event_data st.project_state
          { st with project_state := update_project_state st.project_state path value }
    | _, _ => st
  else if a.atype = "send_human_message" then
    match lookupKey a.fields "message_type", lookupKey a.fields "content" with
    | some mt, some contentTemplate =>
        if jvalTruthy mt ∧ contentTemplate ≠ JVal.null then
          let content := substitute_template contentTemplate event_data
            st.project_state
          let options := substitute_template
            ((lookupKey a.fields "options").getD (.arr [])) event_data
            st.project_state
          let ctx0 : JVal :=
            match lookupKey a.fields "context_id" with
            | some t =>
                if jvalTruthy t then
                  substitute_template t event_data st.project_state
                else .null
            | none => .null
          let eventCtx := (lookupKey event_data "context_id").getD .null
          let ctx1 := if ¬ jvalTruthy ctx0 ∧ jvalTruthy eventCtx then eventCtx
            else ctx0
          if jvalTruthy ctx1 then send_to_human st mt content options ctx1
          else
            send_to_human { st with fresh := st.fresh + 1 } mt content options (.str (mintId st.fresh))
        else st
    | _, _ => st
  else if a.atype = "delegate_task" then
    match lookupKey a.fields "agent", lookupKey a.fields "task" with
    | some (.str agent), some (.str task) =>
        if agent ≠ "" ∧ task ≠ "" then
          let content0 := substitute_template
            ((lookupKey a.fields "content").getD (.obj [])) event_data
            st.project_state
          let ctx0 : JVal :=
            match lookupKey a.fields "context_id" with
            | some t =>
                if jvalTruthy t then
                  substitute_template t event_data st.project_state
                else .null
            | none => .null
          let eventCtx := (lookupKey event_data "context_id").getD .null
          let useEvent := jvalTruthy
            ((lookupKey a.fields "use_event_context_id").getD (.bool false))
          let ctx1 := if useEvent ∧ jvalTruthy eventCtx then eventCtx else ctx0
          let step :=
            if jvalTruthy ctx1 then (jvalKeyStr ctx1, st)
            else (mintId st.fresh, { st with fresh := st.fresh + 1 })
          let ctxStr := step.1
          let st1 := step.2
          let retries : Int :=
            if agent = "Quality Guardian" then
              readQGRetries st1.project_state ctxStr
            else readDeployRetries st1.project_state
          let ps2 := qgDefaultInsert st1.project_state ctxStr
          let st2 :=
            if agent = "Quality Guardian" then { st1 with project_state := ps2 }
            else st1
          let content1 :=
            if agent = "Quality Guardian" ∨ agent = "Deployment Master" then
              setObjKey content0 "retry_attempt" (.num retries)
            else content0
          delegate_task st2 agent task content1 (some ctxStr)
        else st
    | _, _ => st
  else st

/-- `GrandOrchestrator._execute_actions`: run the prescribed actions in
order; the event data is fixed, the project state is live. -/
def execActions (st : OrchState) (event_data : List (String × JVal))
    (actions : List ExecAction) : OrchState :=
  actions.foldl (fun s a => execAction s event_data a) st

/-! ## AIAgent.process_pending_tasks -/

/-- `task_content.get('task_name', 'Unnamed Task')` (the source reads it
off the dict payload every delegated task carries). -/
def taskNameOf (content : JVal) : JVal :=
  match content with
  | .obj l => (lookupKey l "task_name").getD (.str "Unnamed Task")
  | _ => .str "Unnamed Task"

/-- The `result` message a worker sends back on handler success. -/
def resultMsg (name : String) (taskName : JVal) (r : List (String × JVal))
    (c : String) : Message :=
  ⟨name, "Orchestrator", "result", .obj (setKey r "task_name" taskName), some c⟩

/-- The `status_update` message a worker sends back on handler failure. -/
def failMsg (name : String) (taskName : JVal) (e : String) (c : String) :
    Message :=
  ⟨name, "Orchestrator", "status_update",
    .obj [("task_name", taskName), ("status", .str "failed"),
      ("message", .str ("Task failed due to exception: " ++ e))], some c⟩

/-- `AIAgent.process_pending_tasks`: pop at most one message; a `task`
invokes the behaviour and sends exactly one message back to the
Orchestrator — `result` carrying the handler result (with `task_name`
re-stamped) on success, `status_update` with `status: "failed"` when the
handler raises (caught at this boundary); other message kinds are only
logged. `message.get('context_id', 'NoContext')` supplies the default for
a missing context id. -/
def agentActivate (behavior : AgentBehavior) (name : String)
    (st : OrchState) : OrchState :=
  match lookupInbox st.inboxes name with
  | [] => st
  | m :: rest =>
      let st1 := { st with inboxes := setInboxList st.inboxes name rest }
      if m.mtype = "task" then
        let taskName := taskNameOf m.content
        let ctx := m.context_id.getD "NoContext"
        match behavior name m.content with
        | .ok r =>
            { st1 with internal_queue :=
                st1.internal_queue ++ [resultMsg name taskName r ctx] }
        | .error emsg =>
            { st1 with internal_queue :=
                st1.internal_queue ++ [failMsg name taskName emsg ctx] }
      else st1

/-! ## Orchestrator event intake and the dispatch cycle -/

/-- `GrandOrchestrator._process_orchestrator_message`: `result` and
`status_update` messages become an `agent_result` engine event whose
payload carries sender, type, content and context id. -/
def processOrchMessage (cfg : RuleTable) (st : OrchState) (m : Message) :
    OrchState :=
  if m.mtype = "result" ∨ m.mtype = "status_update" then
    let event_data := [("sender", JVal.str m.sender), ("type", JVal.str m.mtype),
      ("content", m.content), ("context_id", ctxToJVal m.context_id)]
    execActions st event_data (process_event cfg "agent_result" event_data st.project_state)
  else st

/-- `GrandOrchestrator._process_internal_messages`: pop up to the batch
cap; orchestrator-addressed messages feed the engine, agent-addressed ones
are routed to mailboxes, unknown recipients are dropped. -/
def processInternal (cfg : RuleTable) : Nat → OrchState → OrchState
  | 0, st => st
  | n + 1, st =>
      match st.internal_queue with
      | [] => st
      | m :: rest =>
          let st1 := { st with internal_queue := rest }
          let st2 :=
            if m.recipient = "Orchestrator" then processOrchMessage cfg st1 m
            else if m.recipient ∈ agentNames then
              deliverToAgent st1 m.recipient m
            else st1
          processInternal cfg n st2

/-- `GrandOrchestrator.get_human_input`: a response without an explicit
context falls back to the pending approval context; the pending flag is
cleared when it matches; the response is fed to the engine as a
`human_input` event. -/
def get_human_input (cfg : RuleTable) (st : OrchState) (response : String)
    (ctx : Option String) : OrchState :=
  let finalCtx : JVal :=
    match ctx with
    | some s => .str s
    | none =>
        (lookupKey st.project_state "pending_human_approval_context").getD
          .null
  let ps1 :=
    if (lookupKey st.project_state "pending_human_approval_context").getD
        .null = finalCtx then
      setKey st.project_state "pending_human_approval_context" .null
    else st.project_state
  let st1 := { st with project_state := ps1 }
  let event_data := [("response", JVal.str response), ("context_id", finalCtx)]
  execActions st1 event_data (process_event cfg "human_input" event_data st1.project_state)

/-- The human-outbox drain at the top of `run_simulation_cycle`: up to
five queued `(response, context_id)` pairs each feed `get_human_input`. -/
def processHumanOutbox (cfg : RuleTable) : Nat → OrchState → OrchState
  | 0, st => st
  | n + 1, st =>
      match st.human_outbox with
      | [] => st
      | (response, ctx) :: rest =>
          processHumanOutbox cfg n
            (get_human_input cfg { st with human_outbox := rest } response ctx)

/-- All agents activate once, in registration order. -/
def agentsPhase (behavior : AgentBehavior) (st : OrchState) : OrchState :=
  agentNames.foldl (fun s name => agentActivate behavior name s) st

/-- `GrandOrchestrator.run_simulation_cycle`, in the source's order: drain
up to five pending human responses, then every agent processes at most one
mailbox message, then drain up to ten internal messages. -/
def run_simulation_cycle (cfg : RuleTable) (behavior : AgentBehavior)
    (st : OrchState) : OrchState :=
  processInternal cfg 10 (agentsPhase behavior (processHumanOutbox cfg 5 st))

/-- The cycle in the order the specification overview describes: workers
first, then the internal batch, then the human responses. Stated from the
spec's words for comparison with `run_simulation_cycle`. -/
def run_simulation_cycle_spec (cfg : RuleTable) (behavior : AgentBehavior)
    (st : OrchState) : OrchState :=
  processHumanOutbox cfg 5 (processInternal cfg 10 (agentsPhase behavior st))

/-! ## Initial orchestrator state (`GrandOrchestrator.__init__`) -/

/-- The initial `project_state` dict. `module_test_retries` is a
`defaultdict(int)`, modelled as an empty map read through
`readQGRetries`/`qgDefaultInsert`. -/
def initial_project_state : List (String × JVal) :=
  [("status", .str "Idle"), ("current_phase", .str "Initiation"),
   ("pending_human_approval_context", .null), ("app_idea", .null),
   ("concept_brief", .null), ("technical_blueprint", .null),
   ("tech_stack_proposal", .null), ("ui_ux_prototype_url", .null),
   ("design_guidelines", .null), ("code_modules_status", .obj []),
   ("test_results", .obj []), ("module_test_retries", .obj []),
   ("deployment_retries", .num 0), ("final_app_url", .null),
   ("selected_deployment_target", .null),
   ("current_task_contexts", .obj []), ("escalated_issues", .obj [])]

/-- The freshly constructed orchestrator: empty queues and mailboxes. -/
def initialOrchState : OrchState :=
  ⟨initial_project_state, [], [], [], agentNames.map (fun n => (n, [])), 0⟩

/-- The ledger entry `{task_name, agent, original_content}` recorded at
delegation. -/
def ledgerEntry (task agent : String) (content : JVal) : JVal :=
  .obj [("task_name", .str task), ("agent", .str agent),
    ("original_content", content)]

/-- The task message delivered to the worker: content plus `task_name`. -/
def delegatedMsg (agent task : String) (content : JVal) (c : String) :
    Message :=
  ⟨"Orchestrator", agent, "task", setObjKey content "task_name" (.str task),
    some c⟩

/-! ## Engine lemmas -/

theorem processHandlers_eq_find? (e s : List (String × JVal)) :
    ∀ hs : List Handler,
      processHandlers e s hs =
        match hs.find? (fun h => check_conditions h.conditions e s) with
        | some h => runActions e s h.actions
        | none => []
  | [] => rfl
  | h :: rest => by
      by_cases hc : check_conditions h.conditions e s = true
      · simp [processHandlers, List.find?, hc]
      · have hc' : check_conditions h.conditions e s = false := by
          simpa using hc
        simp [processHandlers, List.find?, hc',
          processHandlers_eq_find? e s rest]

theorem processHandlers_post_irrelevant (e s : List (String × JVal))
    (h : Handler) (hmatch : check_conditions h.conditions e s = true) :
    ∀ pre post post',
      processHandlers e s (pre ++ h :: post) =
        processHandlers e s (pre ++ h :: post')
  | [], post, post' => by simp [processHandlers, hmatch]
  | p :: pre, post, post' => by
      by_cases hc : check_conditions p.conditions e s = true <;>
        simp [processHandlers, hc,
          processHandlers_post_irrelevant e s h hmatch pre post post']

theorem processHandlers_none (e s : List (String × JVal)) :
    ∀ hs : List Handler,
      (∀ h ∈ hs, check_conditions h.conditions e s = false) →
      processHandlers e s hs = []
  | [], _ => rfl
  | h :: rest, hall => by
      have hh : check_conditions h.conditions e s = false := hall h (by simp)
      simp [processHandlers, hh]
      exact processHandlers_none e s rest fun h' hm => hall h' (by simp [hm])

/-- C1: `process_event` implements first-match-wins: the output is exactly
the processed action list of the first handler (in document order) whose
conditions hold, handlers after the first match are irrelevant to the
result, and the output is `[]` when no handler's conditions hold or the
event kind has no handlers. -/
theorem claim_C1_first_match_wins :
    (∀ (cfg : RuleTable) (k : String) (e s : List (String × JVal)),
        process_event cfg k e s =
          match ((cfg.lookup k).getD []).find?
              (fun h => check_conditions h.conditions e s) with
          | some h => runActions e s h.actions
          | none => []) ∧
    (∀ (e s : List (String × JVal)) (h : Handler) pre post post',
        check_conditions h.conditions e s = true →
        processHandlers e s (pre ++ h :: post) =
          processHandlers e s (pre ++ h :: post')) ∧
    (∀ (e s : List (String × JVal)) (hs : List Handler),
        (∀ h ∈ hs, check_conditions h.conditions e s = false) →
        processHandlers e s hs = []) :=
  ⟨fun _ _ e s => processHandlers_eq_find? e s _,
   fun e s h pre post post' hm =>
     processHandlers_post_irrelevant e s h hm pre post post',
   fun e s hs hall => processHandlers_none e s hs hall⟩

/-- Witness for C1 at a concrete table: with two always-matching handlers
for the same event kind, the second is irrelevant to the output. -/
theorem claim_C1_witness :
    processHandlers [] []
        ([] ++ (⟨[], [⟨"a", []⟩]⟩ : Handler) :: [(⟨[], [⟨"b", []⟩]⟩ : Handler)]) =
      processHandlers [] [] ([] ++ (⟨[], [⟨"a", []⟩]⟩ : Handler) :: []) :=
  claim_C1_first_match_wins.2.1 [] [] _ [] _ _ (by decide)

theorem condGroup_eq_true (e s : List (String × JVal)) (g : String × JVal) :
    condGroup e s g = true ↔
      ∃ pairs, g.2 = .obj pairs ∧
        ((g.1 = "event_data" ∧ ∀ kv ∈ pairs,
            getPath (.obj e) (splitDots kv.1) = some kv.2) ∨
         (g.1 = "project_state" ∧ ∀ kv ∈ pairs,
            getPath (.obj s) (splitDots kv.1) = some kv.2)) := by
  obtain ⟨t, v⟩ := g
  by_cases ht : t = "event_data"
  · subst ht
    cases v <;> simp [condGroup, List.all_eq_true]
  · by_cases ht2 : t = "project_state"
    · subst ht2
      cases v <;> simp [condGroup, List.all_eq_true]
    · simp [condGroup, ht, ht2]

/-- C2: a handler's conditions are a conjunction: the check succeeds iff
every declared condition group is a known group (`event_data` /
`project_state`) whose value is a map all of whose dotted-path keys
resolve in the corresponding source to exactly the expected value; empty
conditions always match; and an unresolvable path fails the handler even
when the expected value is `null`. -/
theorem claim_C2_conjunctive_conditions :
    (∀ e s, check_conditions [] e s = true) ∧
    (∀ conds e s,
        check_conditions conds e s = true ↔
          ∀ g ∈ conds, ∃ pairs, g.2 = .obj pairs ∧
            ((g.1 = "event_data" ∧ ∀ kv ∈ pairs,
                getPath (.obj e) (splitDots kv.1) = some kv.2) ∨
             (g.1 = "project_state" ∧ ∀ kv ∈ pairs,
                getPath (.obj s) (splitDots kv.1) = some kv.2))) ∧
    (∀ e s key exp, getPath (.obj e) (splitDots key) = none →
        check_conditions [("event_data", .obj [(key, exp)])] e s = false) := by
  refine ⟨fun e s => rfl, ?_, ?_⟩
  · intro conds e s
    simp [check_conditions, List.all_eq_true, condGroup_eq_true]
  · intro e s key exp hnone
    simp [check_conditions, condGroup, hnone]

/-- Witness for C2: a condition expecting `null` at an absent key fails. -/
theorem claim_C2_witness :
    check_conditions [("event_data", JVal.obj [("missing", JVal.null)])] [] []
      = false :=
  claim_C2_conjunctive_conditions.2.2 [] [] "missing" JVal.null (by decide)

theorem runActions_no_check (e s : List (String × JVal)) :
    ∀ acts : List ActionCfg, ∀ x ∈ runActions e s acts,
      x.atype ≠ "check_condition"
  | [] => by simp [runActions]
  | a :: rest => by
      by_cases ha : a.atype = "check_condition"
      · by_cases hev : evaluate_condition a s = true <;>
          simp only [runActions, ha, if_true, hev, if_false, ite_true,
            ite_false, reduceIte] <;> intro x hx
        · exact runActions_no_check e s rest x hx
        · simp at hx
      · intro x hx
        simp only [runActions, ha, ite_false, reduceIte, List.mem_cons] at hx
        rcases hx with rfl | hx
        · simpa [mkExec] using ha
        · exact runActions_no_check e s rest x hx

theorem runActions_check_false (e s : List (String × JVal))
    (chk : ActionCfg) (rest : List ActionCfg)
    (hchk : chk.atype = "check_condition")
    (hev : evaluate_condition chk s = false) :
    ∀ pre, runActions e s (pre ++ chk :: rest) = runActions e s pre
  | [] => by simp [runActions, hchk, hev]
  | a :: pre => by
      by_cases ha : a.atype = "check_condition"
      · by_cases haev : evaluate_condition a s = true <;>
          simp [runActions, ha, haev,
            runActions_check_false e s chk rest hchk hev pre]
      · simp [runActions, ha, runActions_check_false e s chk rest hchk hev pre]

theorem runActions_check_true (e s : List (String × JVal))
    (chk : ActionCfg) (rest : List ActionCfg)
    (hchk : chk.atype = "check_condition")
    (hev : evaluate_condition chk s = true) :
    ∀ pre, (∀ a ∈ pre, a.atype = "check_condition" →
        evaluate_condition a s = true) →
      runActions e s (pre ++ chk :: rest) =
        runActions e s pre ++ runActions e s rest
  | [], _ => by simp [runActions, hchk, hev]
  | a :: pre, hall => by
      have htail : ∀ a ∈ pre, a.atype = "check_condition" →
          evaluate_condition a s = true :=
        fun a' hm hc => hall a' (by simp [hm]) hc
      by_cases ha : a.atype = "check_condition"
      · have haev : evaluate_condition a s = true := hall a (by simp) ha
        simp [runActions, ha, haev,
          runActions_check_true e s chk rest hchk hev pre htail]
      · simp [runActions, ha,
          runActions_check_true e s chk rest hchk hev pre htail]

theorem runActions_all_pass (e s : List (String × JVal)) :
    ∀ acts : List ActionCfg,
      (∀ a ∈ acts, a.atype = "check_condition" →
          evaluate_condition a s = true) →
      runActions e s acts =
        (acts.filter fun a => decide (a.atype ≠ "check_condition")).map
          (mkExec e s)
  | [], _ => rfl
  | a :: acts, hall => by
      have htail : ∀ a ∈ acts, a.atype = "check_condition" →
          evaluate_condition a s = true :=
        fun a' hm hc => hall a' (by simp [hm]) hc
      by_cases ha : a.atype = "check_condition"
      · have haev : evaluate_condition a s = true := hall a (by simp) ha
        simp [runActions, ha, haev, List.filter,
          runActions_all_pass e s acts htail]
      · simp [runActions, ha, List.filter,
          runActions_all_pass e s acts htail]

/-- C3: within the winning handler's action list, a `check_condition`
action is control-flow only: it never appears in the output; if it
evaluates false against the shared state, the remaining actions are
dropped while the actions collected before it are still returned; if it
evaluates true, processing continues with the next action. -/
theorem claim_C3_check_condition_inline :
    (∀ (e s : List (String × JVal)) (acts : List ActionCfg),
        ∀ x ∈ runActions e s acts, x.atype ≠ "check_condition") ∧
    (∀ (e s : List (String × JVal)) (chk : ActionCfg) pre rest,
        chk.atype = "check_condition" →
        evaluate_condition chk s = false →
        runActions e s (pre ++ chk :: rest) = runActions e s pre) ∧
    (∀ (e s : List (String × JVal)) (chk : ActionCfg) pre rest,
        chk.atype = "check_condition" →
        evaluate_condition chk s = true →
        (∀ a ∈ pre, a.atype = "check_condition" →
            evaluate_condition a s = true) →
        runActions e s (pre ++ chk :: rest) =
          runActions e s pre ++ runActions e s rest) ∧
    (∀ (e s : List (String × JVal)) (acts : List ActionCfg),
        (∀ a ∈ acts, a.atype = "check_condition" →
            evaluate_condition a s = true) →
        runActions e s acts =
          (acts.filter fun a => decide (a.atype ≠ "check_condition")).map
            (mkExec e s)) :=
  ⟨runActions_no_check,
   fun e s chk pre rest h1 h2 => runActions_check_false e s chk rest h1 h2 pre,
   fun e s chk pre rest h1 h2 h3 =>
     runActions_check_true e s chk rest h1 h2 pre h3,
   runActions_all_pass⟩

/-- Witness for C3: a failing `check_condition` (unknown condition type
evaluates false) drops the rest of the handler's actions but keeps the
action collected before it. -/
theorem claim_C3_witness :
    runActions [] []
        ([⟨"update_state", []⟩] ++
          (⟨"check_condition", []⟩ : ActionCfg) :: [⟨"delegate_task", []⟩]) =
      runActions [] [] [⟨"update_state", []⟩] :=
  claim_C3_check_condition_inline.2.1 [] [] ⟨"check_condition", []⟩
    [⟨"update_state", []⟩] [⟨"delegate_task", []⟩] rfl (by decide)

/-- C8: the built-in condition `all_modules_completed` evaluates true iff
`code_modules_status` in the shared state is a non-empty map all of whose
values are `"completed"`; empty or absent maps and any other
`condition_type` (or a non-`"completed"` status) give false. -/
theorem claim_C8_all_modules_completed :
    ∀ (a : ActionCfg) (s : List (String × JVal)),
      evaluate_condition a s = true ↔
        lookupKey a.fields "condition_type" =
            some (.str "all_modules_completed") ∧
        ∃ statuses, lookupKey s "code_modules_status" = some (.obj statuses) ∧
          statuses ≠ [] ∧ ∀ kv ∈ statuses, kv.2 = JVal.str "completed" := by
  intro a s
  by_cases hct : lookupKey a.fields "condition_type" =
      some (.str "all_modules_completed")
  · cases hm : lookupKey s "code_modules_status" with
    | none => simp [evaluate_condition, hct, hm]
    | some v =>
        cases v <;>
          simp [evaluate_condition, hct, hm, List.all_eq_true,
            List.isEmpty_iff]
  · simp [evaluate_condition, hct]

/-- Witness for C8 on the spec's own examples: two completed modules give
true (via the claim theorem); a map with a `"coding"` module and the empty
map give false. -/
theorem claim_C8_witness :
    evaluate_condition ⟨"check_condition",
        [("condition_type", JVal.str "all_modules_completed")]⟩
      [("code_modules_status",
        JVal.obj [("m1", JVal.str "completed"), ("m2", JVal.str "completed")])]
      = true ∧
    evaluate_condition ⟨"check_condition",
        [("condition_type", JVal.str "all_modules_completed")]⟩
      [("code_modules_status",
        JVal.obj [("m1", JVal.str "completed"), ("m2", JVal.str "coding")])]
      = false ∧
    evaluate_condition ⟨"check_condition",
        [("condition_type", JVal.str "all_modules_completed")]⟩
      [("code_modules_status", JVal.obj [])] = false :=
  ⟨(claim_C8_all_modules_completed _ _).mpr
      ⟨by decide, [("m1", JVal.str "completed"), ("m2", JVal.str "completed")],
        by decide, by decide, by decide⟩,
   by decide, by decide⟩
theorem toList_mk (l : List Char) : (String.mk l).toList = l := rfl

theorem mk_toList (s : String) : String.mk s.toList = s := rfl

theorem isPrefixOf_append_self :
    ∀ a b : List Char, a.isPrefixOf (a ++ b) = true
  | [], _ => by simp [List.isPrefixOf]
  | c :: a, b => by simp [List.isPrefixOf, isPrefixOf_append_self a b]

theorem takeWhile_word_append (t : List Char) :
    ∀ l : List Char, (∀ c ∈ l, isWordChar c = true) →
      (l ++ rbrace :: t).takeWhile isWordChar = l
  | [], _ => by
      have h : isWordChar rbrace = false := by decide
      simp [List.takeWhile_cons, h]
  | c :: l, hl => by
      have hc : isWordChar c = true := hl c (by simp)
      simp [List.takeWhile_cons, hc]
      exact takeWhile_word_append t l fun c h => hl c (by simp [h])

theorem scanGo_nil (names : List String) : ∀ fuel, scanGo names fuel [] = []
  | 0 => rfl
  | _ + 1 => rfl

theorem replaceAllGo_drop_all (pat repl : List Char) :
    ∀ fuel, replaceAllGo pat repl fuel [] = []
  | 0 => rfl
  | _ + 1 => rfl

theorem replaceAll_self (pat repl : List Char) (h : pat ≠ []) :
    replaceAll pat repl pat = repl := by
  cases pat with
  | nil => exact absurd rfl h
  | cons c t =>
      have hpre : (c :: t).isPrefixOf (c :: t) = true := by
        have h2 := isPrefixOf_append_self (c :: t) []
        rwa [List.append_nil] at h2
      simp [replaceAll, List.isEmpty, replaceAllGo, hpre, List.drop_length,
        replaceAllGo_drop_all]

theorem matchNameAt_token (name kp : String) (hkp : kp.toList ≠ [])
    (hw : ∀ c ∈ kp.toList, isWordChar c = true) :
    matchNameAt name
        (name.toList ++ '.' :: (kp.toList ++ [rbrace, rbrace])) =
      some (kp, (name.toList.length + 1) + kp.toList.length + 2) := by
  have hsplit :
      name.toList ++ '.' :: (kp.toList ++ [rbrace, rbrace]) =
        (name.toList ++ ['.']) ++ (kp.toList ++ [rbrace, rbrace]) := by
    simp
  rw [matchNameAt, hsplit]
  have hpre := isPrefixOf_append_self (name.toList ++ ['.'])
    (kp.toList ++ [rbrace, rbrace])
  rw [hpre]
  simp only [List.drop_left]
  have hrun : (kp.toList ++ [rbrace, rbrace]).takeWhile isWordChar
      = kp.toList := takeWhile_word_append [rbrace] kp.toList hw
  rw [hrun]
  have hne : kp.toList.isEmpty = false := by
    cases h : kp.toList with
    | nil => exact absurd h hkp
    | cons _ _ => rfl
  rw [hne]
  simp only [Bool.false_eq_true, if_false]
  have hdrop : (kp.toList ++ [rbrace, rbrace]).drop kp.toList.length
      = [rbrace, rbrace] := List.drop_left _ _
  rw [hdrop]
  have hrb : [rbrace, rbrace].isPrefixOf [rbrace, rbrace] = true := by decide
  rw [hrb]
  simp [mk_toList]

theorem tokenText_toList (name kp : String) :
    (tokenText name kp).toList =
      lbrace :: lbrace ::
        (name.toList ++ '.' :: (kp.toList ++ [rbrace, rbrace])) := by
  simp [tokenText, toList_mk]

theorem matchTokenAt_event (kp : String) (hkp : kp.toList ≠ [])
    (hw : ∀ c ∈ kp.toList, isWordChar c = true) :
    matchTokenAt eventAliases (tokenText "event" kp).toList =
      some ("event", kp,
        "event".toList.length + 1 + kp.toList.length + 2 + 2) := by
  rw [tokenText_toList, matchTokenAt]
  simp only [and_self, eq_self_iff_true, if_true, eventAliases,
    List.findSome?, matchNameAt_token "event" kp hkp hw]
  rfl

theorem matchTokenAt_result (kp : String) (hkp : kp.toList ≠ [])
    (hw : ∀ c ∈ kp.toList, isWordChar c = true) :
    matchTokenAt eventAliases (tokenText "result" kp).toList =
      some ("result", kp,
        "result".toList.length + 1 + kp.toList.length + 2 + 2) := by
  rw [tokenText_toList, matchTokenAt]
  have hno : matchNameAt "event"
      ("result".toList ++ '.' :: (kp.toList ++ [rbrace, rbrace])) = none := by
    rw [matchNameAt]
    simp [List.isPrefixOf]
  simp only [and_self, eq_self_iff_true, if_true, eventAliases,
    List.findSome?, hno, matchNameAt_token "result" kp hkp hw]
  rfl

theorem matchTokenAt_state (kp : String) (hkp : kp.toList ≠ [])
    (hw : ∀ c ∈ kp.toList, isWordChar c = true) :
    matchTokenAt stateAliases (tokenText "state" kp).toList =
      some ("state", kp,
        "state".toList.length + 1 + kp.toList.length + 2 + 2) := by
  rw [tokenText_toList, matchTokenAt]
  simp only [and_self, eq_self_iff_true, if_true, stateAliases,
    List.findSome?, matchNameAt_token "state" kp hkp hw]
  rfl

theorem matchTokenAt_project_state (kp : String) (hkp : kp.toList ≠ [])
    (hw : ∀ c ∈ kp.toList, isWordChar c = true) :
    matchTokenAt stateAliases (tokenText "project_state" kp).toList =
      some ("project_state", kp,
        "project_state".toList.length + 1 + kp.toList.length + 2 + 2) := by
  rw [tokenText_toList, matchTokenAt]
  have hno : matchNameAt "state"
      ("project_state".toList ++ '.' :: (kp.toList ++ [rbrace, rbrace]))
        = none := by
    rw [matchNameAt]
    simp [List.isPrefixOf]
  simp only [and_self, eq_self_iff_true, if_true, stateAliases,
    List.findSome?, hno, matchNameAt_token "project_state" kp hkp hw]
  rfl

theorem scanTokens_token (names : List String) (name kp : String)
    (hmatch : matchTokenAt names (tokenText name kp).toList =
      some (name, kp, name.toList.length + 1 + kp.toList.length + 2 + 2)) :
    scanTokens names (tokenText name kp) = [(name, kp)] := by
  unfold scanTokens
  rw [tokenText_toList] at hmatch ⊢
  have hstep : ∀ fuel,
      scanGo names (fuel + 1)
        (lbrace :: lbrace ::
          (name.toList ++ '.' :: (kp.toList ++ [rbrace, rbrace]))) =
        (name, kp) :: scanGo names fuel
          (List.drop (name.toList.length + 1 + kp.toList.length + 2 + 2 - 1)
            (lbrace ::
              (name.toList ++ '.' :: (kp.toList ++ [rbrace, rbrace])))) := by
    intro fuel
    rw [scanGo, hmatch]
  have hlen :
      (lbrace :: lbrace ::
        (name.toList ++ '.' :: (kp.toList ++ [rbrace, rbrace]))).length =
      (name.toList.length + 1 + kp.toList.length + 2 + 2 - 1) + 1 := by
    simp [List.length_append]
    omega
  rw [hlen, hstep]
  have hl2 :
      (lbrace ::
        (name.toList ++ '.' :: (kp.toList ++ [rbrace, rbrace]))).length =
      name.toList.length + 1 + kp.toList.length + 2 + 2 - 1 := by
    simp [List.length_append]
    omega
  rw [← hl2, List.drop_length, scanGo_nil]

theorem substPhase_token (names : List String) (name kp : String) (d : JVal)
    (hscan : scanTokens names (tokenText name kp) = [(name, kp)]) :
    substPhase names d (tokenText name kp) = resolveRef d kp := by
  unfold substPhase
  rw [hscan]
  simp only [List.foldl]
  rw [replaceAll_self _ _ (by rw [tokenText_toList]; exact List.cons_ne_nil _ _)]
  exact mk_toList _

theorem substFields_eq_map (e st : List (String × JVal)) :
    ∀ l, substFields l e st =
      l.map fun kv => (kv.1, substitute_template kv.2 e st)
  | [] => rfl
  | (k, v) :: rest => by
      simp [substFields, substFields_eq_map e st rest]

theorem substItems_eq_map (e st : List (String × JVal)) :
    ∀ l, substItems l e st = l.map fun v => substitute_template v e st
  | [] => rfl
  | v :: rest => by
      simp [substItems, substItems_eq_map e st rest]

theorem walkTmpl_missing_iff (l : List (String × JVal)) (p : String)
    (ps : List String) :
    walkTmpl (.obj l) (p :: ps) = .missing ↔
      lookupKey l p = none ∨ lookupKey l p = some JVal.null ∨
        ∃ v, lookupKey l p = some v ∧ v ≠ JVal.null ∧
          walkTmpl v ps = .missing := by
  cases h : lookupKey l p with
  | none => simp [walkTmpl, h]
  | some v =>
      by_cases hv : v = JVal.null
      · subst hv
        simp [walkTmpl, h]
      · simp [walkTmpl, h, hv]

theorem walkTmpl_str_noattr (s : String) (p : String) (ps : List String)
    (h : p ∉ strMethodAttrs) : walkTmpl (.str s) (p :: ps) = .missing := by
  simp [walkTmpl, h]

theorem walkTmpl_arr_noattr (xs : List JVal) (p : String) (ps : List String)
    (h : p ∉ listMethodAttrs) : walkTmpl (.arr xs) (p :: ps) = .missing := by
  simp [walkTmpl, h]

theorem walkTmpl_num_noattr (n : Int) (p : String) (ps : List String)
    (h1 : intNumAttr n p = none) (h2 : p ∉ intMethodAttrs) :
    walkTmpl (.num n) (p :: ps) = .missing := by
  simp [walkTmpl, h1, h2]

theorem walkTmpl_bool_noattr (b : Bool) (p : String) (ps : List String)
    (h1 : intNumAttr (if b then 1 else 0) p = none)
    (h2 : p ∉ intMethodAttrs) :
    walkTmpl (.bool b) (p :: ps) = .missing := by
  simp [walkTmpl, h1, h2]

/-- C4, counterexample to the claim as stated: indexing into a non-map
value (`event.content` is the string `"hello"`, indexed with `.x`, which
names no attribute of `str`) yields the missing-data sentinel `"N/A"`,
not a distinct error marker: in the source,
`getattr(value, part, None)` returns the `None` default for such a step,
so the `'ERROR_SUBSTITUTING'` branch is not taken. -/
theorem claim_C4_counterexample :
    substitute_template (.str "\x7b\x7bevent.content.x\x7d\x7d")
        [("content", JVal.str "hello")] [] = JVal.str "N/A" ∧
    ("N/A" : String) ≠ "ERROR_SUBSTITUTING" :=
  ⟨by decide, by decide⟩

/-- C4 (amended): template resolution is total and side-effect free;
every `\x7b\x7bns.path\x7d\x7d` token (ns among `event`/`result` for the
payload and `state`/`project_state` for the shared state; the path a
dot-separated run of word characters, mechanized here over the ASCII
fragment of `\\w`) is replaced by the stringified value reached by
walking the dotted path, where a map step looks the segment up and a
non-map step reads `getattr(value, part, None)`. The token becomes the
sentinel `"N/A"` exactly when the walk yields `None`: a missing key, a
stored `null`, or a non-map step whose segment names no built-in
attribute of the value — never the error-marker, whose branch is
unreachable for JSON data. A non-map step whose segment does name a
built-in attribute substitutes that attribute instead: the numeric data
attributes of `int`/`bool` continue the walk with their number, while
method attributes produce address-bearing `str()` text (`nonJson`, not
constrained here). Dicts and lists are walked structurally so every
string leaf is resolved, and leaves of other types are returned
unchanged. -/
theorem claim_C4_amended_template_resolution :
    (∀ e st n, substitute_template (.num n) e st = .num n) ∧
    (∀ e st b, substitute_template (.bool b) e st = .bool b) ∧
    (∀ e st, substitute_template .null e st = .null) ∧
    (∀ e st l, substitute_template (.obj l) e st =
      .obj (l.map fun kv => (kv.1, substitute_template kv.2 e st))) ∧
    (∀ e st l, substitute_template (.arr l) e st =
      .arr (l.map fun v => substitute_template v e st)) ∧
    (∀ e st s, substitute_template (.str s) e st =
      .str (substPhase stateAliases (.obj st)
        (substPhase eventAliases (.obj e) s))) ∧
    (∀ (d : JVal) (kp : String), kp.toList ≠ [] →
      (∀ c ∈ kp.toList, isWordChar c = true) →
      substPhase eventAliases d (tokenText "event" kp) = resolveRef d kp ∧
      substPhase eventAliases d (tokenText "result" kp) = resolveRef d kp ∧
      substPhase stateAliases d (tokenText "state" kp) = resolveRef d kp ∧
      substPhase stateAliases d (tokenText "project_state" kp) =
        resolveRef d kp) ∧
    (∀ d kp v, walkTmpl d (splitDots kp) = .val v →
      resolveRef d kp = pythonStr v) ∧
    (∀ d kp, walkTmpl d (splitDots kp) = .missing →
      resolveRef d kp = "N/A") ∧
    (∀ (l : List (String × JVal)) p ps,
      walkTmpl (.obj l) (p :: ps) = .missing ↔
        lookupKey l p = none ∨ lookupKey l p = some JVal.null ∨
          ∃ v, lookupKey l p = some v ∧ v ≠ JVal.null ∧
            walkTmpl v ps = .missing) ∧
    (∀ (s : String) p ps, p ∉ strMethodAttrs →
      walkTmpl (.str s) (p :: ps) = .missing) ∧
    (∀ (xs : List JVal) p ps, p ∉ listMethodAttrs →
      walkTmpl (.arr xs) (p :: ps) = .missing) ∧
    (∀ (n : Int) p ps, intNumAttr n p = none → p ∉ intMethodAttrs →
      walkTmpl (.num n) (p :: ps) = .missing) ∧
    (∀ (b : Bool) p ps, intNumAttr (if b then 1 else 0) p = none →
      p ∉ intMethodAttrs → walkTmpl (.bool b) (p :: ps) = .missing) ∧
    (∀ (n : Int) ps,
      walkTmpl (.num n) ("real" :: ps) = walkTmpl (.num n) ps ∧
      walkTmpl (.num n) ("imag" :: ps) = walkTmpl (.num 0) ps ∧
      walkTmpl (.num n) ("numerator" :: ps) = walkTmpl (.num n) ps ∧
      walkTmpl (.num n) ("denominator" :: ps) = walkTmpl (.num 1) ps) ∧
    (∀ (s : String) p ps, p ∈ strMethodAttrs →
      walkTmpl (.str s) (p :: ps) = .nonJson) := by
  refine ⟨fun _ _ _ => rfl, fun _ _ _ => rfl, fun _ _ => rfl,
    ?_, ?_, fun _ _ _ => rfl, ?_, ?_, ?_, walkTmpl_missing_iff,
    walkTmpl_str_noattr, walkTmpl_arr_noattr, walkTmpl_num_noattr,
    walkTmpl_bool_noattr, ?_, ?_⟩
  · intro e st l
    rw [substitute_template, substFields_eq_map]
  · intro e st l
    rw [substitute_template, substItems_eq_map]
  · intro d kp hkp hw
    exact ⟨substPhase_token _ _ _ _
        (scanTokens_token _ _ _ (matchTokenAt_event kp hkp hw)),
      substPhase_token _ _ _ _
        (scanTokens_token _ _ _ (matchTokenAt_result kp hkp hw)),
      substPhase_token _ _ _ _
        (scanTokens_token _ _ _ (matchTokenAt_state kp hkp hw)),
      substPhase_token _ _ _ _
        (scanTokens_token _ _ _ (matchTokenAt_project_state kp hkp hw))⟩
  · intro d kp v h
    simp [resolveRef, h]
  · intro d kp h
    simp [resolveRef, h]
  · intro n ps
    exact ⟨rfl, rfl, rfl, rfl⟩
  · intro s p ps h
    simp [walkTmpl, h]

/-- Witness for C4 (amended) at concrete templates: the event token
`\x7b\x7bevent.content.status\x7d\x7d` resolves to `"failed"`; the
missing-path token `\x7b\x7bevent.content.missing\x7d\x7d` to `"N/A"`; and
`\x7b\x7bstate.deployment_retries.real\x7d\x7d` — a `getattr` step through
the `real` attribute of the integer 0 — to `"0"`, as the source computes
it. -/
theorem claim_C4_witness :
    substPhase eventAliases
        (JVal.obj [("content", JVal.obj [("status", JVal.str "failed")])])
        (tokenText "event" "content.status") = "failed" ∧
    substPhase eventAliases (JVal.obj [("content", JVal.obj [])])
        (tokenText "event" "content.missing") = "N/A" ∧
    substPhase stateAliases
        (JVal.obj [("deployment_retries", JVal.num 0)])
        (tokenText "state" "deployment_retries.real") = "0" := by
  have h1 := (claim_C4_amended_template_resolution.2.2.2.2.2.2.1
    (JVal.obj [("content", JVal.obj [("status", JVal.str "failed")])])
    "content.status" (by decide) (by decide)).1
  have h2 := (claim_C4_amended_template_resolution.2.2.2.2.2.2.1
    (JVal.obj [("content", JVal.obj [])])
    "content.missing" (by decide) (by decide)).1
  have h3 := (claim_C4_amended_template_resolution.2.2.2.2.2.2.1
    (JVal.obj [("deployment_retries", JVal.num 0)])
    "deployment_retries.real" (by decide) (by decide)).2.2.1
  rw [h1, h2, h3]
  exact ⟨by decide, by decide, by decide⟩

/-! ## Association-list lemmas -/

theorem lookupKey_setKey_self :
    ∀ (l : List (String × JVal)) (k : String) (v : JVal),
      lookupKey (setKey l k v) k = some v
  | [], k, v => by simp [setKey, lookupKey]
  | (k', v') :: rest, k, v => by
      by_cases h : k' = k
      · simp [setKey, lookupKey, h]
      · simp [setKey, lookupKey, h, lookupKey_setKey_self rest k v]

theorem lookupKey_setKey_ne :
    ∀ (l : List (String × JVal)) (k k' : String) (v : JVal), k ≠ k' →
      lookupKey (setKey l k v) k' = lookupKey l k'
  | [], k, k', v, h => by simp [setKey, lookupKey, h]
  | (k0, v0) :: rest, k, k', v, h => by
      by_cases h0 : k0 = k
      · subst h0
        simp [setKey, lookupKey, h]
      · simp [setKey, lookupKey, h0, lookupKey_setKey_ne rest k k' v h]

/-! ## C7: path-based state update -/

theorem setIn_spec :
    ∀ (ks : List String) (l : List (String × JVal)) (x v' : JVal),
      setIn (.obj l) ks x = some v' →
      ∃ l', v' = .obj l' ∧ getPath v' ks = some x ∧
        ∀ qs, ¬ ks <+: qs → ¬ qs <+: ks →
          getPath v' qs = getPath (.obj l) qs
  | [], l, x, v', h => by simp [setIn] at h
  | [k], l, x, v', h => by
      simp [setIn] at h
      refine ⟨setKey l k x, h.symm, ?_, ?_⟩
      · simp [← h, getPath, lookupKey_setKey_self]
      · intro qs hq1 hq2
        cases qs with
        | nil => exact absurd List.nil_prefix hq2
        | cons q qs' =>
            have hqk : q ≠ k := by
              intro hqe
              subst hqe
              exact hq1 ⟨qs', by simp⟩
            have hkq : k ≠ q := fun he => hqk he.symm
            simp [← h, getPath, lookupKey_setKey_ne l k q x hkq]
  | k :: k2 :: ks, l, x, v', h => by
      rw [setIn] at h
      cases hl : lookupKey l k with
      | none => rw [hl] at h; dsimp only at h; exact absurd h (by simp)
      | some child =>
          rw [hl] at h
          dsimp only at h
          cases hc : setIn child (k2 :: ks) x with
          | none => rw [hc] at h; dsimp only at h; exact absurd h (by simp)
          | some child' =>
              rw [hc] at h
              dsimp only at h
              simp at h
              have hobj : ∃ lc, child = .obj lc := by
                cases child with
                | obj lc => exact ⟨lc, rfl⟩
                | str s => exact absurd hc (by simp [setIn])
                | num n => exact absurd hc (by simp [setIn])
                | bool b => exact absurd hc (by simp [setIn])
                | null => exact absurd hc (by simp [setIn])
                | arr a => exact absurd hc (by simp [setIn])
              obtain ⟨lc, rfl⟩ := hobj
              obtain ⟨lc', hveq, hget, hframe⟩ := setIn_spec (k2 :: ks) lc x child' hc
              refine ⟨setKey l k child', h.symm, ?_, ?_⟩
              · simp [← h, getPath, lookupKey_setKey_self]
                exact hget
              · intro qs hq1 hq2
                cases qs with
                | nil => exact absurd List.nil_prefix hq2
                | cons q qs' =>
                    by_cases hqk : q = k
                    · subst hqk
                      have h1 : ¬ (k2 :: ks) <+: qs' := by
                        intro hp
                        exact hq1 (by simpa [List.cons_prefix_cons] using hp)
                      have h2 : ¬ qs' <+: (k2 :: ks) := by
                        intro hp
                        exact hq2 (by simpa [List.cons_prefix_cons] using hp)
                      simp [← h, getPath, lookupKey_setKey_self, hl]
                      exact hframe qs' h1 h2
                    · have hkq : k ≠ q := fun he => hqk he.symm
                      simp [← h, getPath, lookupKey_setKey_ne l k q _ hkq]

theorem setIn_nonobj :
    ∀ (v : JVal), (∀ l, v ≠ JVal.obj l) → ∀ ks x, setIn v ks x = none := by
  intro v hv ks x
  cases v with
  | obj l => exact absurd rfl (hv l)
  | str s => cases ks with
      | nil => rfl
      | cons a t => cases t <;> rfl
  | num n => cases ks with
      | nil => rfl
      | cons a t => cases t <;> rfl
  | bool b => cases ks with
      | nil => rfl
      | cons a t => cases t <;> rfl
  | null => cases ks with
      | nil => rfl
      | cons a t => cases t <;> rfl
  | arr l => cases ks with
      | nil => rfl
      | cons a t => cases t <;> rfl

theorem setIn_none_iff (l : List (String × JVal)) (k : String)
    (ks : List String) (x : JVal) :
    setIn (.obj l) (k :: ks) x = none ↔
      ks ≠ [] ∧ (lookupKey l k = none ∨
        ∃ c, lookupKey l k = some c ∧ setIn c ks x = none) := by
  cases ks with
  | nil => simp [setIn]
  | cons k2 ks' =>
      rw [setIn]
      cases hl : lookupKey l k with
      | none => simp
      | some c =>
          dsimp only
          cases hc : setIn c (k2 :: ks') x with
          | none => simp [hc]
          | some c' => simp [hc]

/-- C7: the path-based shared-state write either stores the value at the
path's final key, leaving every path that neither extends nor is extended
by the written path unchanged, or — exactly when an intermediate segment
is missing from its parent map or a parent along the path is not a map —
leaves the state entirely unchanged (and, being a total function, never
raises). -/
theorem claim_C7_state_update_frame :
    (∀ (ps : List (String × JVal)) (path : String) (v : JVal),
      (setIn (.obj ps) (splitDots path) v = none ∧
        update_project_state ps path v = ps) ∨
      (∃ ps', update_project_state ps path v = ps' ∧
        getPath (.obj ps') (splitDots path) = some v ∧
        ∀ qs, ¬ splitDots path <+: qs → ¬ qs <+: splitDots path →
          getPath (.obj ps') qs = getPath (.obj ps) qs)) ∧
    (∀ (l : List (String × JVal)) (k : String) (ks : List String)
        (x : JVal),
      setIn (.obj l) (k :: ks) x = none ↔
        ks ≠ [] ∧ (lookupKey l k = none ∨
          ∃ c, lookupKey l k = some c ∧ setIn c ks x = none)) ∧
    (∀ (v : JVal), (∀ l, v ≠ JVal.obj l) → ∀ ks x, setIn v ks x = none) := by
  refine ⟨?_, setIn_none_iff, setIn_nonobj⟩
  intro ps path v
  cases h : setIn (.obj ps) (splitDots path) v with
  | none => exact Or.inl ⟨rfl, by simp [update_project_state, h]⟩
  | some v' =>
      obtain ⟨l', rfl, hget, hframe⟩ := setIn_spec _ _ _ _ h
      exact Or.inr ⟨l', by simp [update_project_state, h], hget, hframe⟩

/-- Witness for C7: writing `a.y := 7` in `{a: {x: 1}, b: 2}` stores the
value at `a.y` and leaves `b` (a prefix-disjoint path) unchanged; writing
through the missing intermediate key `c` is a no-op. -/
theorem claim_C7_witness :
    (∃ ps', update_project_state
        [("a", JVal.obj [("x", JVal.num 1)]), ("b", JVal.num 2)] "a.y"
        (JVal.num 7) = ps' ∧
      getPath (.obj ps') (splitDots "a.y") = some (JVal.num 7) ∧
      getPath (.obj ps') ["b"] =
        getPath (.obj [("a", JVal.obj [("x", JVal.num 1)]),
          ("b", JVal.num 2)]) ["b"]) ∧
    update_project_state
        [("a", JVal.obj [("x", JVal.num 1)]), ("b", JVal.num 2)] "c.y"
        (JVal.num 7) =
      [("a", JVal.obj [("x", JVal.num 1)]), ("b", JVal.num 2)] := by
  constructor
  · rcases claim_C7_state_update_frame.1
        [("a", JVal.obj [("x", JVal.num 1)]), ("b", JVal.num 2)] "a.y"
        (JVal.num 7) with ⟨hnone, _⟩ | ⟨ps', heq, hget, hframe⟩
    · exact absurd hnone (by decide)
    · exact ⟨ps', heq, hget, hframe ["b"] (by decide) (by decide)⟩
  · rcases claim_C7_state_update_frame.1
        [("a", JVal.obj [("x", JVal.num 1)]), ("b", JVal.num 2)] "c.y"
        (JVal.num 7) with ⟨_, heq⟩ | ⟨ps', heq, hget, hframe⟩
    · exact heq
    · have hps : ps' = [("a", JVal.obj [("x", JVal.num 1)]), ("b", JVal.num 2)] := by
        rw [← heq]; decide
      rw [hps] at hget
      exact absurd hget (by decide)

/-! ## C6: worker activation -/

/-- C6: an activation pops at most one message. A popped `task` message
with a context id sends exactly one message back to the Orchestrator with
that context id copied verbatim: a `result` carrying the handler's result
(with `task_name` re-stamped) on success, a `status_update` whose content
has `status: "failed"` when the handler raises (the error is caught at
this boundary — the activation is a total function of the behaviour's
outcome). Non-`task` messages are popped without a reply, and an empty
mailbox leaves the state unchanged. -/
theorem claim_C6_activation_reply :
    (∀ (behavior : AgentBehavior) (name : String) (st : OrchState)
        (m : Message) (rest : List Message) (c : String),
      lookupInbox st.inboxes name = m :: rest →
      m.mtype = "task" →
      m.context_id = some c →
      (∀ r, behavior name m.content = .ok r →
        agentActivate behavior name st =
          { st with
            inboxes := setInboxList st.inboxes name rest
            internal_queue :=
              st.internal_queue ++
                [resultMsg name (taskNameOf m.content) r c] }) ∧
      (∀ e, behavior name m.content = .error e →
        agentActivate behavior name st =
          { st with
            inboxes := setInboxList st.inboxes name rest
            internal_queue :=
              st.internal_queue ++
                [failMsg name (taskNameOf m.content) e c] })) ∧
    (∀ (behavior : AgentBehavior) (name : String) (st : OrchState)
        (m : Message) (rest : List Message),
      lookupInbox st.inboxes name = m :: rest →
      m.mtype ≠ "task" →
      agentActivate behavior name st =
        { st with inboxes := setInboxList st.inboxes name rest }) ∧
    (∀ (behavior : AgentBehavior) (name : String) (st : OrchState),
      lookupInbox st.inboxes name = [] →
      agentActivate behavior name st = st) := by
  refine ⟨?_, ?_, ?_⟩
  · intro behavior name st m rest c hpop htask hctx
    constructor
    · intro r hok
      rw [agentActivate, hpop]
      simp [htask, hctx, hok]
    · intro e herr
      rw [agentActivate, hpop]
      simp [htask, hctx, herr]
  · intro behavior name st m rest hpop hnot
    rw [agentActivate, hpop]
    simp [hnot]
  · intro behavior name st hpop
    rw [agentActivate, hpop]

/-- Witness for C6 at a concrete state: a failing handler produces exactly
one `status_update` with `status: "failed"` under the inbound context id. -/
theorem claim_C6_witness :
    agentActivate (fun _ _ => .error "boom") "Code Sage"
        ⟨initial_project_state, [], [], [],
          [("Code Sage",
            [⟨"Orchestrator", "Code Sage", "task",
              .obj [("task_name", .str "demo")], some "ctx-1"⟩])], 0⟩ =
      ⟨initial_project_state,
        [⟨"Code Sage", "Orchestrator", "status_update",
          .obj [("task_name", .str "demo"), ("status", .str "failed"),
            ("message",
              .str "Task failed due to exception: boom")], some "ctx-1"⟩],
        [], [], [("Code Sage", [])], 0⟩ := by
  have h := ((claim_C6_activation_reply.1 (fun _ _ => .error "boom")
    "Code Sage"
    ⟨initial_project_state, [], [], [],
      [("Code Sage",
        [⟨"Orchestrator", "Code Sage", "task",
          .obj [("task_name", .str "demo")], some "ctx-1"⟩])], 0⟩
    ⟨"Orchestrator", "Code Sage", "task",
      .obj [("task_name", .str "demo")], some "ctx-1"⟩
    [] "ctx-1" (by decide) rfl rfl).2 "boom" rfl)
  rw [h]
  decide

/-! ## C5/C10: delegation, context reuse and retry bookkeeping -/

theorem qgDefaultInsert_lookup_ne (ps : List (String × JVal)) (ctx k : String)
    (h : k ≠ "module_test_retries") :
    lookupKey (qgDefaultInsert ps ctx) k = lookupKey ps k := by
  unfold qgDefaultInsert
  cases hm : lookupKey ps "module_test_retries" with
  | none => rfl
  | some v =>
      cases v with
      | obj m =>
          dsimp only
          cases hx : lookupKey m ctx with
          | some w => rfl
          | none =>
              exact lookupKey_setKey_ne ps "module_test_retries" k _
                (fun he => h he.symm)
      | str s => rfl
      | num n => rfl
      | bool b => rfl
      | null => rfl
      | arr xs => rfl

theorem readQG_qgDefaultInsert (ps : List (String × JVal)) (ctx : String) :
    readQGRetries (qgDefaultInsert ps ctx) ctx = readQGRetries ps ctx := by
  unfold qgDefaultInsert
  cases hm : lookupKey ps "module_test_retries" with
  | none => rfl
  | some v =>
      cases v with
      | obj m =>
          dsimp only
          cases hx : lookupKey m ctx with
          | some w => rfl
          | none =>
              simp [readQGRetries, lookupKey_setKey_self, hm, hx]
      | str s => rfl
      | num n => rfl
      | bool b => rfl
      | null => rfl
      | arr xs => rfl

theorem readDeploy_qgDefaultInsert (ps : List (String × JVal)) (ctx : String) :
    readDeployRetries (qgDefaultInsert ps ctx) = readDeployRetries ps := by
  unfold readDeployRetries
  rw [qgDefaultInsert_lookup_ne ps ctx "deployment_retries" (by decide)]

theorem execAction_delegate_QG
    (st : OrchState) (event_data : List (String × JVal)) (a : ExecAction)
    (task c : String) (l ledger : List (String × JVal))
    (hat : a.atype = "delegate_task")
    (hagent : lookupKey a.fields "agent" = some (.str "Quality Guardian"))
    (htaskf : lookupKey a.fields "task" = some (.str task))
    (htaskne : task ≠ "")
    (huse : lookupKey a.fields "use_event_context_id" = some (.bool true))
    (hectx : lookupKey event_data "context_id" = some (.str c))
    (hcne : c ≠ "")
    (hcontent : substitute_template
      ((lookupKey a.fields "content").getD (.obj [])) event_data
      st.project_state = .obj l)
    (hledger : lookupKey st.project_state "current_task_contexts" =
      some (.obj ledger)) :
    execAction st event_data a =
      { st with
        project_state :=
          setKey (qgDefaultInsert st.project_state c) "current_task_contexts"
            (.obj (setKey ledger c (ledgerEntry task "Quality Guardian"
              (.obj (setKey l "retry_attempt"
                (.num (readQGRetries st.project_state c)))))))
        inboxes :=
          setInboxList st.inboxes "Quality Guardian"
            (lookupInbox st.inboxes "Quality Guardian" ++
              [delegatedMsg "Quality Guardian" task
                (.obj (setKey l "retry_attempt"
                  (.num (readQGRetries st.project_state c)))) c]) } := by
  have hledger2 : lookupKey (qgDefaultInsert st.project_state c)
      "current_task_contexts" = some (.obj ledger) := by
    rw [qgDefaultInsert_lookup_ne st.project_state c _ (by decide), hledger]
  rw [execAction]
  simp only [hat, hagent, htaskf, huse, hectx, hcontent]
  simp [delegate_task, deliverToAgent, setObjKey, jvalKeyStr, jvalTruthy,
    hcne, htaskne, agentNames, hledger2, ledgerEntry, delegatedMsg,
    send_to_human]

theorem execAction_delegate_DM
    (st : OrchState) (event_data : List (String × JVal)) (a : ExecAction)
    (task c : String) (l ledger : List (String × JVal))
    (hat : a.atype = "delegate_task")
    (hagent : lookupKey a.fields "agent" = some (.str "Deployment Master"))
    (htaskf : lookupKey a.fields "task" = some (.str task))
    (htaskne : task ≠ "")
    (huse : lookupKey a.fields "use_event_context_id" = some (.bool true))
    (hectx : lookupKey event_data "context_id" = some (.str c))
    (hcne : c ≠ "")
    (hcontent : substitute_template
      ((lookupKey a.fields "content").getD (.obj [])) event_data
      st.project_state = .obj l)
    (hledger : lookupKey st.project_state "current_task_contexts" =
      some (.obj ledger)) :
    execAction st event_data a =
      { st with
        project_state :=
          setKey st.project_state "current_task_contexts"
            (.obj (setKey ledger c (ledgerEntry task "Deployment Master"
              (.obj (setKey l "retry_attempt"
                (.num (readDeployRetries st.project_state)))))))
        inboxes :=
          setInboxList st.inboxes "Deployment Master"
            (lookupInbox st.inboxes "Deployment Master" ++
              [delegatedMsg "Deployment Master" task
                (.obj (setKey l "retry_attempt"
                  (.num (readDeployRetries st.project_state)))) c]) } := by
  rw [execAction]
  simp only [hat, hagent, htaskf, huse, hectx, hcontent]
  simp [delegate_task, deliverToAgent, setObjKey, jvalKeyStr, jvalTruthy,
    hcne, htaskne, agentNames, hledger, ledgerEntry, delegatedMsg,
    send_to_human]

theorem lookupInbox_setInboxList_self :
    ∀ (ibs : List (String × List Message)) (n : String) (ms : List Message),
      lookupInbox (setInboxList ibs n ms) n = ms
  | [], n, ms => by simp [setInboxList, lookupInbox]
  | (n', ms') :: rest, n, ms => by
      by_cases h : n' = n
      · simp [setInboxList, lookupInbox, h]
      · simp [setInboxList, lookupInbox, h,
          lookupInbox_setInboxList_self rest n ms]

theorem readQG_setKey_ne (ps : List (String × JVal)) (k : String) (x : JVal)
    (c : String) (h : k ≠ "module_test_retries") :
    readQGRetries (setKey ps k x) c = readQGRetries ps c := by
  unfold readQGRetries
  rw [lookupKey_setKey_ne ps k _ x h]

theorem readDeploy_setKey_ne (ps : List (String × JVal)) (k : String)
    (x : JVal) (h : k ≠ "deployment_retries") :
    readDeployRetries (setKey ps k x) = readDeployRetries ps := by
  unfold readDeployRetries
  rw [lookupKey_setKey_ne ps k _ x h]

/-- C5: a `delegate_task` action with `use_event_context_id` against an
event carrying a context id delegates under exactly that id (no fresh id
is minted), injects the retry counter read for that context into the
payload as `retry_attempt` (the per-context `module_test_retries` entry
for Quality Guardian, the global `deployment_retries` for Deployment
Master), and leaves both counters unchanged — so a second delegation under
the same context id reads the same counter, not a reset one. -/
theorem claim_C5_context_stability :
    (∀ (st : OrchState) (event_data : List (String × JVal)) (a : ExecAction)
        (task c : String) (l ledger : List (String × JVal)),
      a.atype = "delegate_task" →
      lookupKey a.fields "agent" = some (.str "Quality Guardian") →
      lookupKey a.fields "task" = some (.str task) → task ≠ "" →
      lookupKey a.fields "use_event_context_id" = some (.bool true) →
      lookupKey event_data "context_id" = some (.str c) → c ≠ "" →
      substitute_template ((lookupKey a.fields "content").getD (.obj []))
        event_data st.project_state = .obj l →
      lookupKey st.project_state "current_task_contexts" =
        some (.obj ledger) →
      (execAction st event_data a).fresh = st.fresh ∧
      lookupInbox (execAction st event_data a).inboxes "Quality Guardian" =
        lookupInbox st.inboxes "Quality Guardian" ++
          [delegatedMsg "Quality Guardian" task
            (.obj (setKey l "retry_attempt"
              (.num (readQGRetries st.project_state c)))) c] ∧
      readQGRetries (execAction st event_data a).project_state c =
        readQGRetries st.project_state c ∧
      readDeployRetries (execAction st event_data a).project_state =
        readDeployRetries st.project_state) ∧
    (∀ (st : OrchState) (event_data : List (String × JVal)) (a : ExecAction)
        (task c : String) (l ledger : List (String × JVal)),
      a.atype = "delegate_task" →
      lookupKey a.fields "agent" = some (.str "Deployment Master") →
      lookupKey a.fields "task" = some (.str task) → task ≠ "" →
      lookupKey a.fields "use_event_context_id" = some (.bool true) →
      lookupKey event_data "context_id" = some (.str c) → c ≠ "" →
      substitute_template ((lookupKey a.fields "content").getD (.obj []))
        event_data st.project_state = .obj l →
      lookupKey st.project_state "current_task_contexts" =
        some (.obj ledger) →
      (execAction st event_data a).fresh = st.fresh ∧
      lookupInbox (execAction st event_data a).inboxes "Deployment Master" =
        lookupInbox st.inboxes "Deployment Master" ++
          [delegatedMsg "Deployment Master" task
            (.obj (setKey l "retry_attempt"
              (.num (readDeployRetries st.project_state)))) c] ∧
      readQGRetries (execAction st event_data a).project_state c =
        readQGRetries st.project_state c ∧
      readDeployRetries (execAction st event_data a).project_state =
        readDeployRetries st.project_state) := by
  constructor
  · intro st event_data a task c l ledger hat hagent htaskf htaskne huse
      hectx hcne hcontent hledger
    rw [execAction_delegate_QG st event_data a task c l ledger hat hagent
      htaskf htaskne huse hectx hcne hcontent hledger]
    refine ⟨rfl, lookupInbox_setInboxList_self _ _ _, ?_, ?_⟩
    · rw [readQG_setKey_ne _ _ _ _ (by decide), readQG_qgDefaultInsert]
    · rw [readDeploy_setKey_ne _ _ _ (by decide), readDeploy_qgDefaultInsert]
  · intro st event_data a task c l ledger hat hagent htaskf htaskne huse
      hectx hcne hcontent hledger
    rw [execAction_delegate_DM st event_data a task c l ledger hat hagent
      htaskf htaskne huse hectx hcne hcontent hledger]
    refine ⟨rfl, lookupInbox_setInboxList_self _ _ _, ?_, ?_⟩
    · rw [readQG_setKey_ne _ _ _ _ (by decide)]
    · rw [readDeploy_setKey_ne _ _ _ (by decide)]

/-- Witness for C5: delegating to Quality Guardian with
`use_event_context_id` against an event carrying `ctx-1`, where the
`module_test_retries` counter for `ctx-1` is already 2, reuses `ctx-1`,
injects `retry_attempt 2`, and leaves the counter at 2. -/
theorem claim_C5_witness :
    lookupInbox (execAction
        ⟨[("module_test_retries", JVal.obj [("ctx-1", JVal.num 2)]),
          ("deployment_retries", JVal.num 5),
          ("current_task_contexts", JVal.obj [])], [], [], [],
          [("Quality Guardian", [])], 0⟩
        [("context_id", JVal.str "ctx-1")]
        ⟨"delegate_task",
          [("agent", JVal.str "Quality Guardian"),
            ("task", JVal.str "run_module_tests"),
            ("use_event_context_id", JVal.bool true),
            ("content", JVal.obj [("module", JVal.str "m1")])], [], []⟩).inboxes
      "Quality Guardian" =
      [delegatedMsg "Quality Guardian" "run_module_tests"
        (JVal.obj [("module", JVal.str "m1"), ("retry_attempt", JVal.num 2)])
        "ctx-1"] ∧
    readQGRetries (execAction
        ⟨[("module_test_retries", JVal.obj [("ctx-1", JVal.num 2)]),
          ("deployment_retries", JVal.num 5),
          ("current_task_contexts", JVal.obj [])], [], [], [],
          [("Quality Guardian", [])], 0⟩
        [("context_id", JVal.str "ctx-1")]
        ⟨"delegate_task",
          [("agent", JVal.str "Quality Guardian"),
            ("task", JVal.str "run_module_tests"),
            ("use_event_context_id", JVal.bool true),
            ("content", JVal.obj [("module", JVal.str "m1")])], [],
          []⟩).project_state "ctx-1" = 2 := by
  have h := claim_C5_context_stability.1
    ⟨[("module_test_retries", JVal.obj [("ctx-1", JVal.num 2)]),
      ("deployment_retries", JVal.num 5),
      ("current_task_contexts", JVal.obj [])], [], [], [],
      [("Quality Guardian", [])], 0⟩
    [("context_id", JVal.str "ctx-1")]
    ⟨"delegate_task",
      [("agent", JVal.str "Quality Guardian"),
        ("task", JVal.str "run_module_tests"),
        ("use_event_context_id", JVal.bool true),
        ("content", JVal.obj [("module", JVal.str "m1")])], [], []⟩
    "run_module_tests" "ctx-1" [("module", JVal.str "m1")] []
    rfl rfl rfl (by decide) rfl rfl (by decide) (by decide) (by decide)
  refine ⟨?_, ?_⟩
  · rw [h.2.1]
    decide
  · rw [h.2.2.1]
    decide

/-- C10: the retry seed for a first delegation is the integer 0: at
construction `deployment_retries` is 0 and `module_test_retries` is the
empty default map; a context never seen reads as 0; and the payload of a
first delegation under a fresh context id carries `retry_attempt 0` (for
Quality Guardian with any unseen context, and for Deployment Master
whenever the global counter is still 0). -/
theorem claim_C10_initial_retry_zero :
    lookupKey initial_project_state "deployment_retries" =
      some (JVal.num 0) ∧
    lookupKey initial_project_state "module_test_retries" =
      some (JVal.obj []) ∧
    (∀ (ps : List (String × JVal)) (c : String) (m : List (String × JVal)),
      lookupKey ps "module_test_retries" = some (.obj m) →
      lookupKey m c = none → readQGRetries ps c = 0) ∧
    (∀ (st : OrchState) (event_data : List (String × JVal)) (a : ExecAction)
        (task c : String) (l ledger m : List (String × JVal)),
      a.atype = "delegate_task" →
      lookupKey a.fields "agent" = some (.str "Quality Guardian") →
      lookupKey a.fields "task" = some (.str task) → task ≠ "" →
      lookupKey a.fields "use_event_context_id" = some (.bool true) →
      lookupKey event_data "context_id" = some (.str c) → c ≠ "" →
      substitute_template ((lookupKey a.fields "content").getD (.obj []))
        event_data st.project_state = .obj l →
      lookupKey st.project_state "current_task_contexts" =
        some (.obj ledger) →
      lookupKey st.project_state "module_test_retries" = some (.obj m) →
      lookupKey m c = none →
      lookupInbox (execAction st event_data a).inboxes "Quality Guardian" =
        lookupInbox st.inboxes "Quality Guardian" ++
          [delegatedMsg "Quality Guardian" task
            (.obj (setKey l "retry_attempt" (JVal.num 0))) c]) ∧
    (∀ (st : OrchState) (event_data : List (String × JVal)) (a : ExecAction)
        (task c : String) (l ledger : List (String × JVal)),
      a.atype = "delegate_task" →
      lookupKey a.fields "agent" = some (.str "Deployment Master") →
      lookupKey a.fields "task" = some (.str task) → task ≠ "" →
      lookupKey a.fields "use_event_context_id" = some (.bool true) →
      lookupKey event_data "context_id" = some (.str c) → c ≠ "" →
      substitute_template ((lookupKey a.fields "content").getD (.obj []))
        event_data st.project_state = .obj l →
      lookupKey st.project_state "current_task_contexts" =
        some (.obj ledger) →
      readDeployRetries st.project_state = 0 →
      lookupInbox (execAction st event_data a).inboxes "Deployment Master" =
        lookupInbox st.inboxes "Deployment Master" ++
          [delegatedMsg "Deployment Master" task
            (.obj (setKey l "retry_attempt" (JVal.num 0))) c]) := by
  refine ⟨by decide, by decide, ?_, ?_, ?_⟩
  · intro ps c m hm hx
    simp [readQGRetries, hm, hx]
  · intro st event_data a task c l ledger m hat hagent htaskf htaskne huse
      hectx hcne hcontent hledger hm hx
    have h0 : readQGRetries st.project_state c = 0 := by
      simp [readQGRetries, hm, hx]
    rw [execAction_delegate_QG st event_data a task c l ledger hat hagent
      htaskf htaskne huse hectx hcne hcontent hledger]
    rw [lookupInbox_setInboxList_self, h0]
  · intro st event_data a task c l ledger hat hagent htaskf htaskne huse
      hectx hcne hcontent hledger hdr
    rw [execAction_delegate_DM st event_data a task c l ledger hat hagent
      htaskf htaskne huse hectx hcne hcontent hledger]
    rw [lookupInbox_setInboxList_self, hdr]

/-- Witness for C10: a first delegation to Quality Guardian on the freshly
constructed orchestrator state, under the never-seen context `ctx-9`,
delivers a payload with `retry_attempt 0`. -/
theorem claim_C10_witness :
    lookupInbox (execAction initialOrchState
        [("context_id", JVal.str "ctx-9")]
        ⟨"delegate_task",
          [("agent", JVal.str "Quality Guardian"),
            ("task", JVal.str "run_module_tests"),
            ("use_event_context_id", JVal.bool true)], [], []⟩).inboxes
      "Quality Guardian" =
      [delegatedMsg "Quality Guardian" "run_module_tests"
        (JVal.obj [("retry_attempt", JVal.num 0)]) "ctx-9"] := by
  have h := claim_C10_initial_retry_zero.2.2.2.1 initialOrchState
    [("context_id", JVal.str "ctx-9")]
    ⟨"delegate_task",
      [("agent", JVal.str "Quality Guardian"),
        ("task", JVal.str "run_module_tests"),
        ("use_event_context_id", JVal.bool true)], [], []⟩
    "run_module_tests" "ctx-9" [] [] []
    rfl rfl rfl (by decide) rfl rfl (by decide) (by decide) (by decide)
    (by decide) (by decide)
  rw [h]
  decide

/-! ## C9: cycle phase order -/

theorem send_to_human_frame (st : OrchState) (mt c o ctx : JVal) :
    (send_to_human st mt c o ctx).human_outbox = st.human_outbox ∧
    (send_to_human st mt c o ctx).internal_queue = st.internal_queue ∧
    (send_to_human st mt c o ctx).inboxes = st.inboxes := by
  simp only [send_to_human]
  split <;> exact ⟨rfl, rfl, rfl⟩

theorem delegate_task_frame (st : OrchState) (agent task : String)
    (content : JVal) (ctx : Option String) :
    (delegate_task st agent task content ctx).human_outbox =
      st.human_outbox ∧
    (delegate_task st agent task content ctx).internal_queue =
      st.internal_queue := by
  simp only [delegate_task, deliverToAgent, send_to_human]
  repeat' split
  all_goals exact ⟨rfl, rfl⟩

set_option maxHeartbeats 2000000 in
theorem execAction_frame (st : OrchState) (e : List (String × JVal))
    (a : ExecAction) :
    (execAction st e a).human_outbox = st.human_outbox ∧
    (execAction st e a).internal_queue = st.internal_queue := by
  simp only [execAction]
  repeat' split
  all_goals first
    | exact ⟨rfl, rfl⟩
    | exact ⟨(send_to_human_frame _ _ _ _ _).1,
        (send_to_human_frame _ _ _ _ _).2.1⟩
    | exact ⟨(delegate_task_frame _ _ _ _ _).1,
        (delegate_task_frame _ _ _ _ _).2⟩

theorem execActions_frame :
    ∀ (actions : List ExecAction) (st : OrchState)
      (e : List (String × JVal)),
      (execActions st e actions).human_outbox = st.human_outbox ∧
      (execActions st e actions).internal_queue = st.internal_queue
  | [], st, e => ⟨rfl, rfl⟩
  | a :: rest, st, e => by
      have h1 := execAction_frame st e a
      have h2 := execActions_frame rest (execAction st e a) e
      exact ⟨h2.1.trans h1.1, h2.2.trans h1.2⟩

theorem get_human_input_frame (cfg : RuleTable) (st : OrchState)
    (response : String) (ctx : Option String) :
    (get_human_input cfg st response ctx).human_outbox = st.human_outbox ∧
    (get_human_input cfg st response ctx).internal_queue =
      st.internal_queue := by
  simp only [get_human_input]
  exact ⟨(execActions_frame _ _ _).1, (execActions_frame _ _ _).2⟩

theorem processOrchMessage_frame (cfg : RuleTable) (st : OrchState)
    (m : Message) :
    (processOrchMessage cfg st m).internal_queue = st.internal_queue := by
  simp only [processOrchMessage]
  split
  · exact (execActions_frame _ _ _).2
  · rfl

theorem processHumanOutbox_drop (cfg : RuleTable) :
    ∀ (n : Nat) (st : OrchState),
      (processHumanOutbox cfg n st).human_outbox = st.human_outbox.drop n
  | 0, st => by simp [processHumanOutbox]
  | n + 1, st => by
      cases h : st.human_outbox with
      | nil => simp [processHumanOutbox, h]
      | cons p rest =>
          obtain ⟨response, ctx⟩ := p
          rw [processHumanOutbox, h]
          rw [processHumanOutbox_drop cfg n]
          rw [(get_human_input_frame cfg _ response ctx).1]
          simp [h]

theorem processInternal_drop (cfg : RuleTable) :
    ∀ (n : Nat) (st : OrchState),
      (processInternal cfg n st).internal_queue = st.internal_queue.drop n
  | 0, st => by simp [processInternal]
  | n + 1, st => by
      cases h : st.internal_queue with
      | nil => simp [processInternal, h]
      | cons m rest =>
          rw [processInternal, h]
          dsimp only
          split
          · rw [processInternal_drop cfg n,
              processOrchMessage_frame cfg _ m]
            simp [h]
          · split
            · rw [processInternal_drop cfg n]
              simp [deliverToAgent, h]
            · rw [processInternal_drop cfg n]
              simp [h]

theorem lookupInbox_setInboxList_ne :
    ∀ (ibs : List (String × List Message)) (n n' : String)
      (ms : List Message), n ≠ n' →
      lookupInbox (setInboxList ibs n ms) n' = lookupInbox ibs n'
  | [], n, n', ms, h => by simp [setInboxList, lookupInbox, h]
  | (n0, ms0) :: rest, n, n', ms, h => by
      by_cases h0 : n0 = n
      · subst h0
        simp [setInboxList, lookupInbox, h]
      · simp [setInboxList, lookupInbox, h0,
          lookupInbox_setInboxList_ne rest n n' ms h]

theorem agentActivate_inbox_self (b : AgentBehavior) (n : String)
    (st : OrchState) :
    lookupInbox (agentActivate b n st).inboxes n =
      (lookupInbox st.inboxes n).tail := by
  cases hpop : lookupInbox st.inboxes n with
  | nil => rw [agentActivate, hpop, hpop]; rfl
  | cons m rest =>
      rw [agentActivate, hpop]
      by_cases ht : m.mtype = "task"
      · simp only [ht, if_true, ite_true, reduceIte]
        cases behavior : b n m.content <;>
          simp [lookupInbox_setInboxList_self]
      · simp [ht, lookupInbox_setInboxList_self]

theorem agentActivate_inbox_ne (b : AgentBehavior) (n n' : String)
    (st : OrchState) (h : n ≠ n') :
    lookupInbox (agentActivate b n st).inboxes n' =
      lookupInbox st.inboxes n' := by
  cases hpop : lookupInbox st.inboxes n with
  | nil => rw [agentActivate, hpop]
  | cons m rest =>
      rw [agentActivate, hpop]
      by_cases ht : m.mtype = "task"
      · simp only [ht, if_true, ite_true, reduceIte]
        cases behavior : b n m.content <;>
          simp [lookupInbox_setInboxList_ne _ _ _ _ h]
      · simp [ht, lookupInbox_setInboxList_ne _ _ _ _ h]

theorem agentsFold_inbox_notmem (b : AgentBehavior) :
    ∀ (ns : List String) (st : OrchState) (name : String), name ∉ ns →
      lookupInbox
        (List.foldl (fun s n => agentActivate b n s) st ns).inboxes name =
        lookupInbox st.inboxes name
  | [], st, name, _ => rfl
  | n :: ns, st, name, h => by
      have hn : n ≠ name := fun he => h (by simp [he])
      rw [List.foldl_cons]
      rw [agentsFold_inbox_notmem b ns _ name (fun hm => h (by simp [hm]))]
      exact agentActivate_inbox_ne b n name st hn

theorem agentsFold_inbox_mem (b : AgentBehavior) :
    ∀ (ns : List String) (st : OrchState), ns.Nodup →
      ∀ name ∈ ns,
        lookupInbox
          (List.foldl (fun s n => agentActivate b n s) st ns).inboxes name =
          (lookupInbox st.inboxes name).tail
  | [], st, _, name, hmem => by simp at hmem
  | n :: ns, st, hnd, name, hmem => by
      rw [List.foldl_cons]
      rcases List.mem_cons.mp hmem with rfl | hmem'
      · have hnotin : name ∉ ns := (List.nodup_cons.mp hnd).1
        rw [agentsFold_inbox_notmem b ns _ name hnotin]
        exact agentActivate_inbox_self b name st
      · have hne : n ≠ name := by
          intro he
          subst he
          exact (List.nodup_cons.mp hnd).1 hmem'
        rw [agentsFold_inbox_mem b ns _ (List.nodup_cons.mp hnd).2 name hmem']
        rw [agentActivate_inbox_ne b n name st hne]

/-- C9 (amended): within one dispatch cycle the phases run in the
source's order — first up to five pending human responses are drained
through the engine, then every worker processes at most one queued
mailbox message, and only then up to ten internal worker-to-orchestrator
messages are drained through the engine. -/
theorem claim_C9_amended_cycle_order :
    (∀ (cfg : RuleTable) (b : AgentBehavior) (st : OrchState),
      run_simulation_cycle cfg b st =
        processInternal cfg 10 (agentsPhase b (processHumanOutbox cfg 5 st))) ∧
    (∀ (cfg : RuleTable) (n : Nat) (st : OrchState),
      (processHumanOutbox cfg n st).human_outbox =
        st.human_outbox.drop n) ∧
    (∀ (b : AgentBehavior) (st : OrchState) (name : String),
      name ∈ agentNames →
      lookupInbox (agentsPhase b st).inboxes name =
        (lookupInbox st.inboxes name).tail) ∧
    (∀ (cfg : RuleTable) (n : Nat) (st : OrchState),
      (processInternal cfg n st).internal_queue =
        st.internal_queue.drop n) := by
  refine ⟨fun _ _ _ => rfl, processHumanOutbox_drop, ?_, processInternal_drop⟩
  intro b st name hmem
  exact agentsFold_inbox_mem b agentNames st (by decide) name hmem

/-- Witness for C9 (amended) at a concrete state: the worker phase leaves
an empty mailbox empty. -/
theorem claim_C9_witness :
    lookupInbox (agentsPhase (fun _ _ => .ok []) initialOrchState).inboxes
      "Code Sage" = [] := by
  have h := claim_C9_amended_cycle_order.2.2.1 (fun _ _ => .ok [])
    initialOrchState "Code Sage" (by decide)
  rw [h]
  decide

/-- C9, counterexample to the claim as stated (workers first, then the
internal batch, then the human responses): with one handler delegating a
human response to Code Sage, the source's cycle lets Code Sage process the
task in the same cycle (the human drain runs first), while the claimed
order would leave the task sitting in the mailbox at cycle end. -/
theorem claim_C9_counterexample :
    run_simulation_cycle
        [("human_input",
          [⟨[], [⟨"delegate_task",
            [("agent", JVal.str "Code Sage"), ("task", JVal.str "demo"),
              ("use_event_context_id", JVal.bool true)]⟩]⟩])]
        (fun _ _ => .ok [])
        { initialOrchState with human_outbox := [("go", some "c1")] } ≠
      run_simulation_cycle_spec
        [("human_input",
          [⟨[], [⟨"delegate_task",
            [("agent", JVal.str "Code Sage"), ("task", JVal.str "demo"),
              ("use_event_context_id", JVal.bool true)]⟩]⟩])]
        (fun _ _ => .ok [])
        { initialOrchState with human_outbox := [("go", some "c1")] } := by
  decide
